import Mathlib

/-!
Shallow embedding of the Network-Cloud-Web-Client server core: the agent
credential store and heartbeat state machine, and the device reconciliation
(sync) engine.  Definitions are translated from:

  * `src/server/storage.ts`            (DatabaseStorage methods)
  * `src/unnamed/part_001`             (route handlers: heartbeat, register,
                                        update, delete, syncDevices)
  * `src/unnamed/part_002`             (isAgentAuthenticated middleware)
  * `src/shared/schema.ts`             (table shapes)

The SQL store is modelled as in-memory lists of rows; timestamps are `Nat`
(`new Date()` at a call site becomes an explicit `now` argument); nullable
columns are `Option`; JavaScript string truthiness (`if (x)` where `x` is a
possibly-null string) is modelled explicitly.  The `approved` column is
declared nullable with default `false` in the schema, but every write to it is
a boolean and every read applies JS truthiness, so it is modelled as `Bool`.
-/

namespace NetworkCloud

/-- JavaScript truthiness of a nullable string: `null`, `undefined` and `""`
are falsy. -/
def truthy : Option String → Bool
  | none => false
  | some s => s ≠ ""

/-- JavaScript `x || null` on a nullable string: a falsy value becomes
`null`. -/
def jsOrNull : Option String → Option String
  | none => none
  | some s => if s = "" then none else some s

/-- JavaScript `x || dflt` on a nullable string with a string default. -/
def jsOr (o : Option String) (dflt : String) : String :=
  match o with
  | none => dflt
  | some s => if s = "" then dflt else s

/-- A row of the `devices` table (src/shared/schema.ts). -/
structure Device where
  id : Nat
  userId : String
  name : String
  macAddress : Option String
  status : String
  lastSeenAt : Nat
  createdAt : Nat
deriving Repr, DecidableEq

/-- A row of the `device_network_states` table (src/shared/schema.ts). -/
structure NetworkState where
  deviceId : Nat
  ipAddress : Option String
  isLastKnown : Bool
  updatedAt : Nat
deriving Repr, DecidableEq

/-- A row of the `agent_tokens` table (src/shared/schema.ts), including the
agent-binding columns.  The `agentUuid` column is read and written by the
heartbeat route in src/unnamed/part_001; it is the spec's
`agentInstallationId`. -/
structure AgentToken where
  id : Nat
  userId : String
  name : String
  tokenHash : String
  tokenPrefix : String
  lastUsedAt : Option Nat
  createdAt : Nat
  revokedAt : Option Nat
  approved : Bool
  agentUuid : Option String
  agentMacAddress : Option String
  agentHostname : Option String
  agentIpAddress : Option String
  firstConnectedAt : Option Nat
  lastHeartbeatAt : Option Nat
deriving Repr, DecidableEq

/-- The persistent store: the three tables relevant to the core, plus the
serial-id counter for `devices.id`. -/
structure Store where
  devices : List Device
  networkStates : List NetworkState
  agentTokens : List AgentToken
  nextDeviceId : Nat
deriving Repr, DecidableEq

/-- Well-formedness that the SQL schema guarantees: `devices.id` is a serial
primary key, so ids are pairwise distinct and below the allocation counter. -/
def Store.wf (s : Store) : Prop :=
  (s.devices.map (·.id)).Nodup ∧ ∀ d ∈ s.devices, d.id < s.nextDeviceId

instance (s : Store) : Decidable s.wf := by
  unfold Store.wf; infer_instance

/-- Primary-key well-formedness of the `agent_tokens` table. -/
def Store.tokenWf (s : Store) : Prop :=
  (s.agentTokens.map (·.id)).Nodup

instance (s : Store) : Decidable s.tokenWf := by
  unfold Store.tokenWf; infer_instance

/-! ## storage.ts methods -/

/-- `storage.getDevices(userId)`: all devices of one user.  The SQL orders by
`lastSeenAt` descending; the order is irrelevant to every property proved
below (each is either order-independent or assumes per-owner MAC uniqueness),
so rows are returned in table order. -/
def getDevices (s : Store) (userId : String) : List Device :=
  s.devices.filter (fun d => d.userId == userId)

/-- `storage.getDevice(id)`. -/
def getDevice (s : Store) (id : Nat) : Option Device :=
  s.devices.find? (fun d => d.id == id)

/-- `storage.getDeviceByMac(userId, macAddress)`: SQL `=` never matches a NULL
column, so only rows with `macAddress = some mac` match. -/
def getDeviceByMac (s : Store) (userId mac : String) : Option Device :=
  s.devices.find? (fun d => d.userId == userId && d.macAddress == some mac)

/-- The partial update object passed to `storage.updateDevice` (only the
fields the callers actually put in it). -/
structure DeviceUpdates where
  name : Option String := none
  status : Option String := none
  macAddress : Option (Option String) := none
deriving Repr

/-- Application of a partial update plus the unconditional
`lastSeenAt: new Date()` of `storage.updateDevice`. -/
def applyDeviceUpdates (d : Device) (u : DeviceUpdates) (now : Nat) : Device :=
  { d with
    name := u.name.getD d.name
    status := u.status.getD d.status
    macAddress := u.macAddress.getD d.macAddress
    lastSeenAt := now }

/-- `storage.updateDevice(id, updates)`: update-where-id, returning the
updated row. -/
def updateDevice (s : Store) (id : Nat) (u : DeviceUpdates) (now : Nat) :
    Store × Option Device :=
  let ds := s.devices.map (fun d => if d.id == id then applyDeviceUpdates d u now else d)
  ({ s with devices := ds }, ds.find? (fun d => d.id == id))

/-- `storage.createDevice`: insert with a fresh serial id; `createdAt` and
`lastSeenAt` default to now. -/
def createDevice (s : Store) (userId name : String) (macAddress : Option String)
    (status : String) (now : Nat) : Store × Device :=
  let d : Device :=
    { id := s.nextDeviceId
      userId := userId
      name := name
      macAddress := macAddress
      status := status
      lastSeenAt := now
      createdAt := now }
  ({ s with devices := s.devices ++ [d], nextDeviceId := s.nextDeviceId + 1 }, d)

/-- `storage.updateNetworkState(deviceId, ipAddress, isLastKnown)`: upsert on
the unique `deviceId` column. -/
def updateNetworkState (s : Store) (deviceId : Nat) (ipAddress : String)
    (isLastKnown : Bool) (now : Nat) : Store :=
  if s.networkStates.any (fun ns => ns.deviceId == deviceId) then
    { s with networkStates := s.networkStates.map (fun ns =>
        if ns.deviceId == deviceId then
          { ns with
            ipAddress := some ipAddress
            isLastKnown := isLastKnown
            updatedAt := now }
        else ns) }
  else
    { s with networkStates := s.networkStates ++
        [{ deviceId := deviceId
           ipAddress := some ipAddress
           isLastKnown := isLastKnown
           updatedAt := now }] }

/-- `storage.deleteDevice(id)`: delete the network-state rows of the device,
then the device row. -/
def deleteDevice (s : Store) (id : Nat) : Store :=
  { s with
    networkStates := s.networkStates.filter (fun ns => ns.deviceId != id)
    devices := s.devices.filter (fun d => d.id != id) }

/-- `storage.getAgentTokens(userId)` (order by `createdAt` desc is irrelevant
to the properties below; rows in table order). -/
def getAgentTokens (s : Store) (userId : String) : List AgentToken :=
  s.agentTokens.filter (fun t => t.userId == userId)

/-- `storage.getAgentTokenByHash(tokenHash)`: select where the hash matches
and `revokedAt` IS NULL. -/
def getAgentTokenByHash (s : Store) (tokenHash : String) : Option AgentToken :=
  s.agentTokens.find? (fun t => t.tokenHash == tokenHash && t.revokedAt == none)

/-- `storage.revokeAgentToken(id, userId)`: update-where `id` and `userId`
match, setting `revokedAt = now` (note: the source has no `revokedAt IS NULL`
condition), returning whether any row matched. -/
def revokeAgentToken (s : Store) (id : Nat) (userId : String) (now : Nat) :
    Store × Bool :=
  ({ s with agentTokens := s.agentTokens.map (fun t =>
      if t.id == id && t.userId == userId then { t with revokedAt := some now } else t) },
   s.agentTokens.any (fun t => t.id == id && t.userId == userId))

/-- `storage.updateAgentTokenLastUsed(id)`. -/
def updateAgentTokenLastUsed (s : Store) (id : Nat) (now : Nat) : Store :=
  { s with agentTokens := s.agentTokens.map (fun t =>
      if t.id == id then { t with lastUsedAt := some now } else t) }

/-! ## Agent authentication (src/unnamed/part_002)

`hashToken` in src/server/utils/agentToken.ts is SHA-256 from node's crypto
library; the hash primitive itself is external code, so the middleware is
parametrised by an arbitrary function `hash : String → String` (the spec only
requires it to be deterministic). -/

/-- Header parsing of the middleware: `authHeader.startsWith("Bearer ")`
followed by `authHeader.substring(7)`.  "Bearer " is seven ASCII characters,
so the byte/UTF-16 offset 7 is the character offset 7; the prefix test and
the offset-7 tail are taken in one pattern match. -/
def bearerToken (h : String) : Option String :=
  match h.data with
  | 'B' :: 'e' :: 'a' :: 'r' :: 'e' :: 'r' :: ' ' :: rest => some (String.mk rest)
  | _ => none

/-- `isAgentAuthenticated` (src/unnamed/part_002): returns the authenticated
`(userId, tokenId)` on success and records `lastUsedAt` (the fire-and-forget
write), rejecting a missing/malformed header, a token shorter than 32
characters, and an unknown or revoked hash. -/
def isAgentAuthenticated (hash : String → String) (s : Store)
    (authHeader : Option String) (now : Nat) : Store × Option (String × Nat) :=
  match authHeader with
  | none => (s, none)
  | some h =>
    match bearerToken h with
    | none => (s, none)
    | some token =>
      if token = "" ∨ token.length < 32 then (s, none)
      else
        match getAgentTokenByHash s (hash token) with
        | none => (s, none)
        | some t => (updateAgentTokenLastUsed s t.id now, some (t.userId, t.id))

/-! ## Heartbeat route (src/unnamed/part_001, lines 241-292) -/

/-- Parsed heartbeat body (`agentUuid`, `macAddress`, `hostname` required,
`ipAddress` optional). -/
structure HeartbeatBody where
  agentUuid : String
  macAddress : String
  hostname : String
  ipAddress : Option String
deriving Repr, DecidableEq

/-- The `status` field of the heartbeat response: `"ok"`,
`"pending_approval"`, `"device_mismatch"`, or the 401 `"Token not found"`
branch. -/
inductive HeartbeatStatus where
  | ok
  | pendingApproval
  | deviceMismatch
  | tokenNotFound
deriving Repr, DecidableEq

/-- Modelled from the spec: `storage.updateAgentInfo` is invoked by the
heartbeat route (src/unnamed/part_001 line 272) but its implementation is not
under src/ (the storage interface under src/server/storage.ts predates the
agent-binding columns).  Spec section 4.2 gives the transition: on an unbound
binding (`agentInstallationId` null) record the presented identity and set
`firstConnectedAt = now` leaving `approved` untouched; on a different bound
installation id mutate nothing; on the same installation id update
`hardwareAddress`/`hostname`/`networkAddress` and `lastHeartbeatAt = now`.
The row is looked up by token id and the updated row is returned. -/
def updateAgentInfo (s : Store) (tokenId : Nat) (uuid mac hostname ip : String)
    (now : Nat) : Store × Option AgentToken :=
  match s.agentTokens.find? (fun t => t.id == tokenId) with
  | none => (s, none)
  | some t =>
    if t.agentUuid.getD "" = "" then
      let t' := { t with
        agentUuid := some uuid
        agentMacAddress := some mac
        agentHostname := some hostname
        agentIpAddress := some ip
        firstConnectedAt := some now }
      ({ s with agentTokens := s.agentTokens.map (fun x => if x.id == tokenId then t' else x) },
       some t')
    else if t.agentUuid.getD "" ≠ uuid then
      (s, some t)
    else
      let t' := { t with
        agentMacAddress := some mac
        agentHostname := some hostname
        agentIpAddress := some ip
        lastHeartbeatAt := some now }
      ({ s with agentTokens := s.agentTokens.map (fun x => if x.id == tokenId then t' else x) },
       some t')

/-- The heartbeat handler (src/unnamed/part_001 lines 241-292), after body
validation, with `tokenId`/`userId` attached by the middleware: re-load the
token scoped to the user, detect a UUID mismatch before mutating anything,
otherwise record the agent info, touch `lastUsedAt`, and report approval
state from the freshly updated row. -/
def heartbeatRoute (s : Store) (tokenId : Nat) (userId : String)
    (b : HeartbeatBody) (now : Nat) : Store × HeartbeatStatus :=
  match (getAgentTokens s userId).find? (fun t => t.id == tokenId) with
  | none => (s, .tokenNotFound)
  | some tokenBefore =>
    if truthy tokenBefore.agentUuid && tokenBefore.agentUuid.getD "" != b.agentUuid then
      (s, .deviceMismatch)
    else
      let r := updateAgentInfo s tokenId b.agentUuid b.macAddress b.hostname
                 (b.ipAddress.getD "") now
      let s2 := updateAgentTokenLastUsed r.1 tokenId now
      if (r.2.map (·.approved)).getD false then (s2, .ok)
      else (s2, .pendingApproval)

/-! ## Single-device agent routes (src/unnamed/part_001, lines 294-390) -/

/-- The `if (ipAddress) { await storage.updateNetworkState(id, ipAddress, false) }`
pattern shared by the register, update and sync handlers. -/
def applyIp (s : Store) (did : Nat) (o : Option String) (now : Nat) : Store :=
  match jsOrNull o with
  | some ip => updateNetworkState s did ip false now
  | none => s

/-- Parsed body of `POST /api/agent/devices`. -/
structure RegisterBody where
  name : String
  macAddress : Option String
  status : Option String
  ipAddress : Option String
deriving Repr, DecidableEq

/-- The registerDevice handler: with a truthy MAC that matches an existing
device of the user, update it (status defaulting to "online"), else create a
new device (`macAddress || null`); in both cases upsert network state when an
IP was reported. -/
def registerDeviceRoute (s : Store) (userId : String) (b : RegisterBody)
    (now : Nat) : Store :=
  match jsOrNull b.macAddress with
  | some mac =>
    (match getDeviceByMac s userId mac with
     | some existing =>
        let s1 := (updateDevice s existing.id
          { name := some b.name, status := some (jsOr b.status "online") } now).1
        applyIp s1 existing.id b.ipAddress now
     | none =>
        let r := createDevice s userId b.name (some mac) (jsOr b.status "online") now
        applyIp r.1 r.2.id b.ipAddress now)
  | none =>
    let r := createDevice s userId b.name none (jsOr b.status "online") now
    applyIp r.1 r.2.id b.ipAddress now

/-- Parsed body of `PATCH /api/agent/devices/:id`. -/
structure UpdateBody where
  name : Option String
  status : Option String
  ipAddress : Option String
deriving Repr, DecidableEq

/-- The updateDevice handler: 404 (no change) unless the device exists and is
owned by the caller; only truthy `name`/`status` are placed in the update
object (never `macAddress`); IP upserts network state. -/
def updateDeviceRoute (s : Store) (userId : String) (deviceId : Nat)
    (b : UpdateBody) (now : Nat) : Store :=
  match getDevice s deviceId with
  | none => s
  | some d =>
    if d.userId != userId then s
    else
      let s1 := (updateDevice s deviceId
        { name := jsOrNull b.name, status := jsOrNull b.status } now).1
      applyIp s1 deviceId b.ipAddress now

/-- The deleteDevice handler: 404 (no change) unless the device exists and is
owned by the caller. -/
def deleteDeviceRoute (s : Store) (userId : String) (deviceId : Nat) : Store :=
  match getDevice s deviceId with
  | none => s
  | some d => if d.userId != userId then s else deleteDevice s deviceId

/-! ## Device sync (src/unnamed/part_001, lines 392-440) -/

/-- One element of the `devices` array of `PUT /api/agent/devices/sync`
(`name` and `status` required, `macAddress` and `ipAddress` optional). -/
structure SyncEntry where
  name : String
  macAddress : Option String
  status : String
  ipAddress : Option String
deriving Repr, DecidableEq

/-- The `{created, updated, deleted}` response body of sync. -/
structure SyncCounters where
  created : Nat
  updated : Nat
  deleted : Nat
deriving Repr, DecidableEq

/-- The JavaScript `Map` from MAC address to device, as an association list
in insertion order: inserting an existing key overwrites in place, a new key
appends. -/
abbrev MacMap := List (String × Device)

def mapInsert (m : MacMap) (k : String) (v : Device) : MacMap :=
  if m.any (fun kv => kv.1 == k) then
    m.map (fun kv => if kv.1 == k then (k, v) else kv)
  else m ++ [(k, v)]

def mapGet (m : MacMap) (k : String) : Option Device :=
  (m.find? (fun kv => kv.1 == k)).map (·.2)

def mapDelete (m : MacMap) (k : String) : MacMap :=
  m.filter (fun kv => kv.1 != k)

/-- `new Map(existingDevices.filter(d => d.macAddress).map(d => [d.macAddress, d]))`:
only devices with a truthy MAC enter the map. -/
def mkMacMap (ds : List Device) : MacMap :=
  (ds.filter (fun d => truthy d.macAddress)).foldl
    (fun m d => mapInsert m (d.macAddress.getD "") d) []

/-- One iteration of the sync loop over `incomingDevices`: a truthy MAC found
in the map updates the matched device (and removes the map entry), otherwise
a new device is created with `macAddress || null`; either way network state
is upserted when an IP was reported.  The accumulator is
(store, map, created, updated). -/
def syncStep (userId : String) (now : Nat) (acc : Store × MacMap × Nat × Nat)
    (e : SyncEntry) : Store × MacMap × Nat × Nat :=
  let s := acc.1
  let m := acc.2.1
  let c := acc.2.2.1
  let u := acc.2.2.2
  match jsOrNull e.macAddress with
  | some mac =>
    match mapGet m mac with
    | some existing =>
      let s1 := (updateDevice s existing.id
        { name := some e.name, status := some e.status } now).1
      (applyIp s1 existing.id e.ipAddress now, mapDelete m mac, c, u + 1)
    | none =>
      let r := createDevice s userId e.name (some mac) e.status now
      (applyIp r.1 r.2.id e.ipAddress now, m, c + 1, u)
  | none =>
    let r := createDevice s userId e.name none e.status now
    (applyIp r.1 r.2.id e.ipAddress now, m, c + 1, u)

/-- The deletion phase after the loop: `Array.from(existingByMac.values())`
is deleted device by device, and `deleted` counts them. -/
def syncRemaining (r : Store × MacMap × Nat × Nat) : Store × SyncCounters :=
  ((r.2.1.map (·.2)).foldl (fun st d => deleteDevice st d.id) r.1,
   { created := r.2.2.1, updated := r.2.2.2, deleted := (r.2.1.map (·.2)).length })

/-- The syncDevices handler after validation: build the MAC map of the user's
existing devices, run the match/create loop over the reported entries, then
delete every device left in the map. -/
def syncDevices (s : Store) (userId : String) (entries : List SyncEntry)
    (now : Nat) : Store × SyncCounters :=
  syncRemaining (entries.foldl (syncStep userId now)
    (s, mkMacMap (getDevices s userId), 0, 0))

/-! ## Request validation (modelled from the spec)

The zod body schemas live in `@shared/routes`, which is not under src/ (only
the handlers that call `safeParse` are).  They are modelled from spec
section 4.3: a hardware address is six colon-separated hexadecimal octets,
`status` is one of `online`/`offline`/`away`, `name` is a required non-empty
string, and an IP address, if present, must be a syntactically valid IPv4 or
IPv6 literal. -/

def isHexDigit (c : Char) : Bool :=
  c.isDigit || ('a' ≤ c && c ≤ 'f') || ('A' ≤ c && c ≤ 'F')

/-- Separator split on the character list of a string (the structural
counterpart of `String.splitOn` with a one-character separator). -/
def splitOnChar (sep : Char) : List Char → List (List Char)
  | [] => [[]]
  | c :: cs =>
    if c = sep then [] :: splitOnChar sep cs
    else
      match splitOnChar sep cs with
      | [] => [[c]]
      | p :: ps => (c :: p) :: ps

/-- Modelled from the spec: "A hardware address format is validated as six
colon-separated hexadecimal octets." -/
def isValidMacAddress (s : String) : Bool :=
  let parts := splitOnChar ':' s.data
  parts.length == 6 && parts.all (fun p => p.length == 2 && p.all isHexDigit)

/-- Decimal value of a digit list. -/
def decValue (p : List Char) : Nat :=
  p.foldl (fun n c => n * 10 + (c.toNat - 48)) 0

/-- Modelled from the spec: a syntactically valid IPv4 literal (four
dot-separated decimal octets, each between 0 and 255). -/
def isValidIpv4 (s : String) : Bool :=
  let parts := splitOnChar '.' s.data
  parts.length == 4 && parts.all (fun p =>
    decide (1 ≤ p.length) && decide (p.length ≤ 3) && p.all Char.isDigit &&
    decide (decValue p ≤ 255))

/-- Modelled from the spec: a syntactically valid IPv6 literal, simplified to
colon-separated groups of at most four hex digits: either eight non-empty
groups, or at most eight groups with a single `::` contraction (which shows
up as one to three empty groups in the split). -/
def isValidIpv6 (s : String) : Bool :=
  let parts := splitOnChar ':' s.data
  parts.all (fun p => decide (p.length ≤ 4) && p.all isHexDigit) &&
  ((parts.length == 8 && parts.all (fun p => !p.isEmpty)) ||
   (decide (3 ≤ parts.length) && decide (parts.length ≤ 8) &&
    decide (1 ≤ parts.count []) && decide (parts.count [] ≤ 3)))

def isValidIp (s : String) : Bool :=
  isValidIpv4 s || isValidIpv6 s

/-- Modelled from the spec: per-entry validation of a sync payload element,
returning the names of the offending fields. -/
def validateSyncEntry (e : SyncEntry) : List String :=
  (if e.name = "" then ["name"] else []) ++
  (if e.status = "online" ∨ e.status = "offline" ∨ e.status = "away" then []
   else ["status"]) ++
  (match e.macAddress with
   | some mac => if isValidMacAddress mac then [] else ["macAddress"]
   | none => []) ++
  (match e.ipAddress with
   | some ip => if isValidIp ip then [] else ["ipAddress"]
   | none => [])

/-- Modelled from the spec: whole-payload validation, reporting each invalid
field as (entry index, field name). -/
def validateSyncBody (entries : List SyncEntry) : List (Nat × String) :=
  (entries.enum.map (fun ie => (validateSyncEntry ie.2).map (fun f => (ie.1, f)))).flatten

/-- The full `PUT /api/agent/devices/sync` handler: `safeParse` rejects the
request with a 400 validation error before any storage call (validation
modelled from the spec, the rest from src/unnamed/part_001 lines 392-440). -/
def syncDevicesRoute (s : Store) (userId : String) (entries : List SyncEntry)
    (now : Nat) : Store × Except (List (Nat × String)) SyncCounters :=
  let errs := validateSyncBody entries
  if errs.isEmpty then
    let r := syncDevices s userId entries now
    (r.1, Except.ok r.2)
  else (s, Except.error errs)

/-! ## General list toolkit: lookups and replacement keyed by a unique key -/

section KeyLemmas

variable {α : Type} {κ : Type} [DecidableEq κ] {key : α → κ}

/-- In a list whose keys are pairwise distinct, `find?` by the key of a
member returns that member. -/
theorem find?_key_of_nodup {l : List α} (h : (l.map key).Nodup) {t : α}
    (ht : t ∈ l) : l.find? (fun x => key x == key t) = some t := by
  induction l with
  | nil => cases ht
  | cons a rest ih =>
    rcases List.mem_cons.mp ht with rfl | hrest
    · simp [List.find?]
    · have hk : key a ≠ key t := by
        intro hcontr
        have : key t ∈ rest.map key := List.mem_map_of_mem _ hrest
        rw [← hcontr] at this
        exact (List.nodup_cons.mp h).1 this
      have hrestN : (rest.map key).Nodup := (List.nodup_cons.mp h).2
      simp only [List.find?]
      rw [show (key a == key t) = false from beq_eq_false_iff_ne.mpr hk]
      exact ih hrestN hrest

/-- In a list whose keys are pairwise distinct, filtering by the key of a
member yields exactly that member. -/
theorem filter_key_of_nodup {l : List α} (h : (l.map key).Nodup) {t : α}
    (ht : t ∈ l) : l.filter (fun x => key x == key t) = [t] := by
  induction l with
  | nil => cases ht
  | cons a rest ih =>
    rcases List.mem_cons.mp ht with rfl | hrest
    · have hnotin : ∀ x ∈ rest, key x ≠ key t := by
        intro x hx hcontr
        have : key t ∈ rest.map key := by
          rw [← hcontr]; exact List.mem_map_of_mem _ hx
        exact (List.nodup_cons.mp h).1 this
      simp only [List.filter, beq_self_eq_true]
      rw [List.filter_eq_nil_iff.mpr (by intro x hx; simpa using hnotin x hx)]
    · have hk : key a ≠ key t := by
        intro hcontr
        have : key t ∈ rest.map key := List.mem_map_of_mem _ hrest
        rw [← hcontr] at this
        exact (List.nodup_cons.mp h).1 this
      have hrestN : (rest.map key).Nodup := (List.nodup_cons.mp h).2
      simp only [List.filter]
      rw [show (key a == key t) = false from beq_eq_false_iff_ne.mpr hk]
      exact ih hrestN hrest

/-- Replacing the unique element with a given key and then looking the key up
finds the replacement. -/
theorem find?_map_replace {l : List α} (h : (l.map key).Nodup) {t t' : α}
    (ht : t ∈ l) (hid : key t' = key t) :
    (l.map (fun x => if key x == key t then t' else x)).find?
      (fun x => key x == key t) = some t' := by
  induction l with
  | nil => cases ht
  | cons a rest ih =>
    rcases List.mem_cons.mp ht with rfl | hrest
    · simp [List.find?, hid]
    · have hk : key a ≠ key t := by
        intro hcontr
        have : key t ∈ rest.map key := List.mem_map_of_mem _ hrest
        rw [← hcontr] at this
        exact (List.nodup_cons.mp h).1 this
      have hrestN : (rest.map key).Nodup := (List.nodup_cons.mp h).2
      have hka : (key a == key t) = false := beq_eq_false_iff_ne.mpr hk
      simp only [List.map, List.find?, hka, Bool.false_eq_true, if_false]
      exact ih hrestN hrest

end KeyLemmas

/-! ## Heartbeat: mismatch frame (C1) and the bind/refresh transitions (C2) -/

/-- The id column of the user-scoped token list is still duplicate-free. -/
theorem getAgentTokens_ids_nodup {s : Store} (h : s.tokenWf) (u : String) :
    ((getAgentTokens s u).map (·.id)).Nodup :=
  ((List.filter_sublist _).map _).nodup h

theorem mem_getAgentTokens {s : Store} {t : AgentToken} (hmem : t ∈ s.agentTokens)
    (hu : t.userId = u) : t ∈ getAgentTokens s u := by
  unfold getAgentTokens
  rw [List.mem_filter]
  exact ⟨hmem, by simp [hu]⟩

/-- C1: a heartbeat presenting installation id `b.agentUuid` different from
the non-null (and, as every stored installation id, non-empty) bound id `a`
returns `device_mismatch` and leaves the entire store — in particular every
binding field of every credential — unchanged. -/
theorem heartbeat_mismatch_readonly (s : Store) (t : AgentToken) (a : String)
    (userId : String) (b : HeartbeatBody) (now : Nat)
    (htok : s.tokenWf) (hmem : t ∈ s.agentTokens) (hu : t.userId = userId)
    (ha : t.agentUuid = some a) (hne : a ≠ "") (hb : b.agentUuid ≠ a) :
    heartbeatRoute s t.id userId b now = (s, .deviceMismatch) := by
  have hfind : (getAgentTokens s userId).find? (fun x => x.id == t.id) = some t :=
    find?_key_of_nodup (getAgentTokens_ids_nodup htok userId) (mem_getAgentTokens hmem hu)
  unfold heartbeatRoute
  rw [hfind]
  have h1 : truthy t.agentUuid = true := by rw [ha]; simpa [truthy] using hne
  have h2 : (t.agentUuid.getD "" != b.agentUuid) = true := by
    rw [ha]; simpa using fun h => hb h.symm
  simp [h1, h2]

/-- A concrete bound, approved credential used to exercise the heartbeat
mismatch branch. -/
def mismatchToken : AgentToken :=
  { id := 1
    userId := "u"
    name := "cred"
    tokenHash := "h"
    tokenPrefix := "h"
    lastUsedAt := none
    createdAt := 0
    revokedAt := none
    approved := true
    agentUuid := some "uuid-A"
    agentMacAddress := some "AA:BB:CC:DD:EE:01"
    agentHostname := some "Host"
    agentIpAddress := some "10.0.0.1"
    firstConnectedAt := some 3
    lastHeartbeatAt := some 4 }

def mismatchStore : Store :=
  { devices := [], networkStates := [], agentTokens := [mismatchToken], nextDeviceId := 0 }

/-- C1 witness. -/
theorem heartbeat_mismatch_readonly_witness :
    mismatchStore.tokenWf ∧
    heartbeatRoute mismatchStore 1 "u"
      { agentUuid := "uuid-B", macAddress := "AA:BB:CC:DD:EE:02", hostname := "X", ipAddress := none }
      9 = (mismatchStore, .deviceMismatch) :=
  ⟨by decide,
   heartbeat_mismatch_readonly mismatchStore mismatchToken "uuid-A" "u"
     { agentUuid := "uuid-B", macAddress := "AA:BB:CC:DD:EE:02", hostname := "X", ipAddress := none }
     9 (by decide) (by simp [mismatchStore]) rfl rfl (by decide) (by decide)⟩

/-- After the non-mismatch heartbeat path, the token list is the original
with the single row of the credential replaced: the `updateAgentInfo` write
composed with the `lastUsedAt` touch. -/
theorem heartbeat_tokens_replace {l : List AgentToken} {i : Nat} (t' : AgentToken)
    (hid : t'.id = i) (now : Nat) :
    ((l.map (fun x => if x.id == i then t' else x)).map
        (fun x => if x.id == i then { x with lastUsedAt := some now } else x)) =
      l.map (fun x => if x.id == i then { t' with lastUsedAt := some now } else x) := by
  rw [List.map_map]
  apply List.map_congr_left
  intro x _
  by_cases h : x.id = i
  · simp [Function.comp, h, hid]
  · simp [Function.comp, h]

/-- Lookup of the credential row after the `updateAgentInfo` write and the
`lastUsedAt` touch. -/
theorem find?_after_touch {l : List AgentToken} (h : (l.map (·.id)).Nodup)
    {t : AgentToken} (t' : AgentToken) (ht : t ∈ l) (hid : t'.id = t.id) (now : Nat) :
    ((l.map (fun x => if x.id == t.id then t' else x)).map
        (fun x => if x.id == t.id then { x with lastUsedAt := some now } else x)).find?
      (fun x => x.id == t.id) = some { t' with lastUsedAt := some now } := by
  rw [heartbeat_tokens_replace t' hid now]
  exact find?_map_replace h ht (by simp [hid])

/-- The shape of the whole heartbeat route when the mismatch guard does not
fire, in terms of the result of `updateAgentInfo`. -/
theorem heartbeatRoute_nonmismatch (s : Store) (t : AgentToken) (userId : String)
    (b : HeartbeatBody) (now : Nat) (s' : Store) (tr : AgentToken)
    (hfindUser : (getAgentTokens s userId).find? (fun x => x.id == t.id) = some t)
    (hguard : (truthy t.agentUuid && t.agentUuid.getD "" != b.agentUuid) = false)
    (hupd : updateAgentInfo s t.id b.agentUuid b.macAddress b.hostname
      (b.ipAddress.getD "") now = (s', some tr)) :
    heartbeatRoute s t.id userId b now =
      (updateAgentTokenLastUsed s' t.id now,
       if tr.approved then .ok else .pendingApproval) := by
  unfold heartbeatRoute
  rw [hfindUser]
  simp only [hguard, if_false, Bool.false_eq_true, hupd]
  by_cases h : tr.approved <;> simp [h]

/-- C2: on a heartbeat for a credential whose stored installation id is null,
the presented identity is recorded (with `firstConnectedAt = now`), approval
stays `false`, and the result is `pending_approval`; on a heartbeat whose
presented (non-empty) installation id equals the stored one, the descriptive
fields and `lastHeartbeatAt` are refreshed and the result is `ok` exactly
when the binding is approved, else `pending_approval`.  (The middleware's
`lastUsedAt` touch is also visible in the row.) -/
theorem heartbeat_bind_or_refresh (s : Store) (t : AgentToken) (userId : String)
    (b : HeartbeatBody) (now : Nat)
    (htok : s.tokenWf) (hmem : t ∈ s.agentTokens) (hu : t.userId = userId)
    (hbne : b.agentUuid ≠ "") :
    (t.agentUuid = none → t.approved = false →
      (heartbeatRoute s t.id userId b now).2 = .pendingApproval ∧
      (heartbeatRoute s t.id userId b now).1.agentTokens.find? (fun x => x.id == t.id) =
        some { t with
          agentUuid := some b.agentUuid
          agentMacAddress := some b.macAddress
          agentHostname := some b.hostname
          agentIpAddress := some (b.ipAddress.getD "")
          firstConnectedAt := some now
          lastUsedAt := some now }) ∧
    (t.agentUuid = some b.agentUuid →
      (heartbeatRoute s t.id userId b now).2 = (if t.approved then .ok else .pendingApproval) ∧
      (heartbeatRoute s t.id userId b now).1.agentTokens.find? (fun x => x.id == t.id) =
        some { t with
          agentMacAddress := some b.macAddress
          agentHostname := some b.hostname
          agentIpAddress := some (b.ipAddress.getD "")
          lastHeartbeatAt := some now
          lastUsedAt := some now }) := by
  have hfindUser : (getAgentTokens s userId).find? (fun x => x.id == t.id) = some t :=
    find?_key_of_nodup (getAgentTokens_ids_nodup htok userId) (mem_getAgentTokens hmem hu)
  have hfindAll : s.agentTokens.find? (fun x => x.id == t.id) = some t :=
    find?_key_of_nodup htok hmem
  constructor
  · intro hnil happr
    have hguard : (truthy t.agentUuid && t.agentUuid.getD "" != b.agentUuid) = false := by
      rw [hnil]; rfl
    have hupd : updateAgentInfo s t.id b.agentUuid b.macAddress b.hostname
        (b.ipAddress.getD "") now =
      ({ s with agentTokens := s.agentTokens.map (fun x =>
          if x.id == t.id then { t with
            agentUuid := some b.agentUuid
            agentMacAddress := some b.macAddress
            agentHostname := some b.hostname
            agentIpAddress := some (b.ipAddress.getD "")
            firstConnectedAt := some now } else x) },
        some { t with
          agentUuid := some b.agentUuid
          agentMacAddress := some b.macAddress
          agentHostname := some b.hostname
          agentIpAddress := some (b.ipAddress.getD "")
          firstConnectedAt := some now }) := by
      unfold updateAgentInfo
      rw [hfindAll]
      simp [hnil]
    have hroute := heartbeatRoute_nonmismatch s t userId b now _ _ hfindUser hguard hupd
    rw [hroute]
    constructor
    · simp [happr]
    · exact find?_after_touch htok
        { t with
          agentUuid := some b.agentUuid
          agentMacAddress := some b.macAddress
          agentHostname := some b.hostname
          agentIpAddress := some (b.ipAddress.getD "")
          firstConnectedAt := some now }
        hmem rfl now
  · intro hsame
    have hguard : (truthy t.agentUuid && t.agentUuid.getD "" != b.agentUuid) = false := by
      rw [hsame]; simp
    have hupd : updateAgentInfo s t.id b.agentUuid b.macAddress b.hostname
        (b.ipAddress.getD "") now =
      ({ s with agentTokens := s.agentTokens.map (fun x =>
          if x.id == t.id then { t with
            agentMacAddress := some b.macAddress
            agentHostname := some b.hostname
            agentIpAddress := some (b.ipAddress.getD "")
            lastHeartbeatAt := some now } else x) },
        some { t with
          agentMacAddress := some b.macAddress
          agentHostname := some b.hostname
          agentIpAddress := some (b.ipAddress.getD "")
          lastHeartbeatAt := some now }) := by
      unfold updateAgentInfo
      rw [hfindAll]
      simp [hsame, hbne]
    have hroute := heartbeatRoute_nonmismatch s t userId b now _ _ hfindUser hguard hupd
    rw [hroute]
    exact ⟨rfl, find?_after_touch htok
      { t with
        agentMacAddress := some b.macAddress
        agentHostname := some b.hostname
        agentIpAddress := some (b.ipAddress.getD "")
        lastHeartbeatAt := some now }
      hmem rfl now⟩

/-- A concrete unbound, unapproved credential. -/
def unboundToken : AgentToken :=
  { id := 2
    userId := "u"
    name := "cred"
    tokenHash := "h2"
    tokenPrefix := "h2"
    lastUsedAt := none
    createdAt := 0
    revokedAt := none
    approved := false
    agentUuid := none
    agentMacAddress := none
    agentHostname := none
    agentIpAddress := none
    firstConnectedAt := none
    lastHeartbeatAt := none }

def unboundStore : Store :=
  { devices := [], networkStates := [], agentTokens := [unboundToken], nextDeviceId := 0 }

/-- C2 witness. -/
theorem heartbeat_bind_or_refresh_witness :
    unboundStore.tokenWf ∧
    ((unboundToken.agentUuid = none → unboundToken.approved = false →
      (heartbeatRoute unboundStore 2 "u"
        { agentUuid := "uuid-C", macAddress := "AA:BB:CC:DD:EE:05", hostname := "H", ipAddress := some "10.0.0.9" }
        11).2 = .pendingApproval ∧
      (heartbeatRoute unboundStore 2 "u"
        { agentUuid := "uuid-C", macAddress := "AA:BB:CC:DD:EE:05", hostname := "H", ipAddress := some "10.0.0.9" }
        11).1.agentTokens.find? (fun x => x.id == 2) =
        some { unboundToken with
          agentUuid := some "uuid-C"
          agentMacAddress := some "AA:BB:CC:DD:EE:05"
          agentHostname := some "H"
          agentIpAddress := some "10.0.0.9"
          firstConnectedAt := some 11
          lastUsedAt := some 11 }) ∧
     (unboundToken.agentUuid = some "uuid-C" →
      (heartbeatRoute unboundStore 2 "u"
        { agentUuid := "uuid-C", macAddress := "AA:BB:CC:DD:EE:05", hostname := "H", ipAddress := some "10.0.0.9" }
        11).2 = (if unboundToken.approved then .ok else .pendingApproval) ∧
      (heartbeatRoute unboundStore 2 "u"
        { agentUuid := "uuid-C", macAddress := "AA:BB:CC:DD:EE:05", hostname := "H", ipAddress := some "10.0.0.9" }
        11).1.agentTokens.find? (fun x => x.id == 2) =
        some { unboundToken with
          agentMacAddress := some "AA:BB:CC:DD:EE:05"
          agentHostname := some "H"
          agentIpAddress := some "10.0.0.9"
          lastHeartbeatAt := some 11
          lastUsedAt := some 11 })) :=
  ⟨by decide,
   heartbeat_bind_or_refresh unboundStore unboundToken "u"
     { agentUuid := "uuid-C", macAddress := "AA:BB:CC:DD:EE:05", hostname := "H", ipAddress := some "10.0.0.9" }
     11 (by decide) (by simp [unboundStore]) rfl (by decide)⟩

/-! ## Credential revocation (C6) -/

/-- A credential that is already revoked (at time 5). -/
def alreadyRevokedToken : AgentToken :=
  { id := 1
    userId := "u"
    name := "cred"
    tokenHash := "h"
    tokenPrefix := "h"
    lastUsedAt := none
    createdAt := 0
    revokedAt := some 5
    approved := false
    agentUuid := none
    agentMacAddress := none
    agentHostname := none
    agentIpAddress := none
    firstConnectedAt := none
    lastHeartbeatAt := none }

def alreadyRevokedStore : Store :=
  { devices := [], networkStates := [], agentTokens := [alreadyRevokedToken], nextDeviceId := 0 }

/-- C6 counterexample: `revokeAgentToken` on a credential that is already
revoked (`revokedAt = some 5`) returns `true` — not `false` — and overwrites
`revokedAt` with the new time 9, so a set `revokedAt` is not permanent. -/
theorem revoke_already_revoked_cex :
    (revokeAgentToken alreadyRevokedStore 1 "u" 9).2 = true ∧
    (revokeAgentToken alreadyRevokedStore 1 "u" 9).1.agentTokens.map (·.revokedAt) =
      [some 9] := by
  decide

/-- C6 (amended): `revokeAgentToken` returns `false` exactly when no
credential with the given id belongs to the caller (not found, or owned by a
different principal); whenever the credential is found and owned it returns
`true` and sets `revokedAt = now` on it — even if it was already revoked, in
which case the timestamp is overwritten — and every other row is left
unchanged. -/
theorem revokeAgentToken_behavior (s : Store) (id : Nat) (userId : String) (now : Nat) :
    ((revokeAgentToken s id userId now).2 = true ↔
      ∃ t ∈ s.agentTokens, t.id = id ∧ t.userId = userId) ∧
    (∀ t ∈ s.agentTokens,
      (t.id = id ∧ t.userId = userId →
        { t with revokedAt := some now } ∈ (revokeAgentToken s id userId now).1.agentTokens) ∧
      (¬(t.id = id ∧ t.userId = userId) →
        t ∈ (revokeAgentToken s id userId now).1.agentTokens)) ∧
    (∀ t' ∈ (revokeAgentToken s id userId now).1.agentTokens,
      ∃ t ∈ s.agentTokens, t' = t ∨ t' = { t with revokedAt := some now }) := by
  refine ⟨?_, ?_, ?_⟩
  · simp only [revokeAgentToken, List.any_eq_true, Bool.and_eq_true, beq_iff_eq]
  · intro t ht
    constructor
    · rintro ⟨h1, h2⟩
      have hf := List.mem_map_of_mem
        (fun x => if x.id == id && x.userId == userId then
          { x with revokedAt := some now } else x) ht
      rw [show (fun x => if x.id == id && x.userId == userId then
          { x with revokedAt := some now } else x) t = { t with revokedAt := some now }
        from by simp [h1, h2]] at hf
      exact hf
    · intro hno
      have hcond : (t.id == id && t.userId == userId) = false := by
        rcases Decidable.em (t.id = id) with h1 | h1
        · rcases Decidable.em (t.userId = userId) with h2 | h2
          · exact absurd ⟨h1, h2⟩ hno
          · simp [h2]
        · simp [h1]
      have hf := List.mem_map_of_mem
        (fun x => if x.id == id && x.userId == userId then
          { x with revokedAt := some now } else x) ht
      rw [show (fun x => if x.id == id && x.userId == userId then
          { x with revokedAt := some now } else x) t = t
        from by simp [hcond]] at hf
      exact hf
  · intro t' ht'
    simp only [revokeAgentToken] at ht'
    rcases List.mem_map.mp ht' with ⟨t, ht, heq⟩
    refine ⟨t, ht, ?_⟩
    by_cases h : (t.id == id && t.userId == userId) = true
    · right; rw [← heq]; simp [h]
    · left; rw [← heq]; simp [h]

/-- C6 witness (for the amended theorem; no Prop hypotheses, instantiated at
the counterexample store). -/
theorem revokeAgentToken_behavior_witness :
    ((revokeAgentToken alreadyRevokedStore 1 "u" 9).2 = true ↔
      ∃ t ∈ alreadyRevokedStore.agentTokens, t.id = 1 ∧ t.userId = "u") ∧
    (∀ t ∈ alreadyRevokedStore.agentTokens,
      (t.id = 1 ∧ t.userId = "u" →
        { t with revokedAt := some 9 } ∈ (revokeAgentToken alreadyRevokedStore 1 "u" 9).1.agentTokens) ∧
      (¬(t.id = 1 ∧ t.userId = "u") →
        t ∈ (revokeAgentToken alreadyRevokedStore 1 "u" 9).1.agentTokens)) ∧
    (∀ t' ∈ (revokeAgentToken alreadyRevokedStore 1 "u" 9).1.agentTokens,
      ∃ t ∈ alreadyRevokedStore.agentTokens, t' = t ∨ t' = { t with revokedAt := some 9 }) :=
  revokeAgentToken_behavior alreadyRevokedStore 1 "u" 9

/-! ## Bearer authentication (C5) -/

theorem bearerToken_append (s : String) : bearerToken ("Bearer " ++ s) = some s := by
  unfold bearerToken
  have h : ("Bearer " ++ s).data = 'B' :: 'e' :: 'a' :: 'r' :: 'e' :: 'r' :: ' ' :: s.data := by
    simp [String.data_append]
  rw [h]
  simp

/-- Success of the hash lookup characterised as a membership statement. -/
theorem getAgentTokenByHash_isSome (s : Store) (k : String) :
    (getAgentTokenByHash s k).isSome ↔
      ∃ t ∈ s.agentTokens, t.tokenHash = k ∧ t.revokedAt = none := by
  unfold getAgentTokenByHash
  rw [List.find?_isSome]
  constructor
  · rintro ⟨t, ht, hp⟩
    simp only [Bool.and_eq_true, beq_iff_eq] at hp
    exact ⟨t, ht, hp.1, by simpa using hp.2⟩
  · rintro ⟨t, ht, h1, h2⟩
    exact ⟨t, ht, by simp [h1, h2]⟩

/-- C5: presenting `Bearer <secret>` (with a secret of credential length)
succeeds exactly when some stored credential's hash equals the hash of the
secret and its `revokedAt` is null; and once `revoke` commits for the
matching credential, the very next authentication with the same secret
fails.  The hash column is unique (schema constraint), `hash` is an
arbitrary deterministic function standing for SHA-256. -/
theorem authenticate_iff_active (hash : String → String) (s : Store) (secret : String)
    (now now2 now3 : Nat)
    (hHash : (s.agentTokens.map (·.tokenHash)).Nodup)
    (hlen : 32 ≤ secret.length) :
    ((isAgentAuthenticated hash s (some ("Bearer " ++ secret)) now).2.isSome ↔
      ∃ t ∈ s.agentTokens, t.tokenHash = hash secret ∧ t.revokedAt = none) ∧
    (∀ t ∈ s.agentTokens, t.tokenHash = hash secret →
      (isAgentAuthenticated hash ((revokeAgentToken s t.id t.userId now2).1)
        (some ("Bearer " ++ secret)) now3).2 = none) := by
  have hne : ¬(secret = "" ∨ secret.length < 32) := by
    rintro (rfl | h)
    · simp at hlen
    · omega
  constructor
  · show (match bearerToken ("Bearer " ++ secret) with
      | none => (s, none)
      | some token =>
        if token = "" ∨ token.length < 32 then (s, none)
        else
          match getAgentTokenByHash s (hash token) with
          | none => (s, none)
          | some t => (updateAgentTokenLastUsed s t.id now, some (t.userId, t.id))).2.isSome
      ↔ _
    rw [bearerToken_append]
    simp only [if_neg hne]
    rw [← getAgentTokenByHash_isSome s (hash secret)]
    rcases hfind : getAgentTokenByHash s (hash secret) with _ | t <;> simp [hfind]
  · intro t ht hhash
    show (match bearerToken ("Bearer " ++ secret) with
      | none => ((revokeAgentToken s t.id t.userId now2).1, none)
      | some token =>
        if token = "" ∨ token.length < 32 then ((revokeAgentToken s t.id t.userId now2).1, none)
        else
          match getAgentTokenByHash (revokeAgentToken s t.id t.userId now2).1 (hash token) with
          | none => ((revokeAgentToken s t.id t.userId now2).1, none)
          | some tt => (updateAgentTokenLastUsed (revokeAgentToken s t.id t.userId now2).1 tt.id now3,
              some (tt.userId, tt.id))).2 = none
    rw [bearerToken_append]
    simp only [if_neg hne]
    have hfindnone : getAgentTokenByHash (revokeAgentToken s t.id t.userId now2).1
        (hash secret) = none := by
      unfold getAgentTokenByHash revokeAgentToken
      rw [List.find?_eq_none]
      intro x' hx'
      rcases List.mem_map.mp hx' with ⟨x, hx, heq⟩
      by_cases hcond : (x.id == t.id && x.userId == t.userId) = true
      · rw [← heq]
        simp [hcond]
      · have hxt : x' = x := by rw [← heq]; simp [hcond]
        intro hcontr
        simp only [Bool.and_eq_true, beq_iff_eq] at hcontr
        rw [hxt] at hcontr
        have hxeq : x = t := List.inj_on_of_nodup_map hHash hx ht (hcontr.1.trans hhash.symm)
        rw [hxeq] at hcond
        simp at hcond
    rw [hfindnone]

/-- A concrete active credential store for the C5 witness. -/
def activeTokenStore : Store :=
  { devices := []
    networkStates := []
    agentTokens := [{ alreadyRevokedToken with
      id := 3
      tokenHash := "0123456789abcdef0123456789abcdef"
      revokedAt := none }]
    nextDeviceId := 0 }

/-- C5 witness: instantiated with the identity function as the hash and a
32-character secret equal to the stored hash. -/
theorem authenticate_iff_active_witness :
    ((isAgentAuthenticated (fun x => x) activeTokenStore
        (some ("Bearer " ++ "0123456789abcdef0123456789abcdef")) 1).2.isSome ↔
      ∃ t ∈ activeTokenStore.agentTokens,
        t.tokenHash = "0123456789abcdef0123456789abcdef" ∧ t.revokedAt = none) ∧
    (∀ t ∈ activeTokenStore.agentTokens,
      t.tokenHash = "0123456789abcdef0123456789abcdef" →
      (isAgentAuthenticated (fun x => x) ((revokeAgentToken activeTokenStore t.id t.userId 2).1)
        (some ("Bearer " ++ "0123456789abcdef0123456789abcdef")) 3).2 = none) :=
  authenticate_iff_active (fun x => x) activeTokenStore
    "0123456789abcdef0123456789abcdef" 1 2 3 (by decide) (by decide)

/-! ## Sync validation atomicity (C7) -/

/-- Every invalid field of an entry is reported, tagged with the entry's
index. -/
theorem mem_validateSyncBody {entries : List SyncEntry} {i : Nat} {e : SyncEntry}
    (hi : entries[i]? = some e) {f : String} (hf : f ∈ validateSyncEntry e) :
    (i, f) ∈ validateSyncBody entries := by
  unfold validateSyncBody
  rw [List.mem_flatten]
  refine ⟨(validateSyncEntry e).map (fun f => (i, f)), ?_, List.mem_map_of_mem _ hf⟩
  have : (i, e) ∈ entries.enum := List.mk_mem_enum_iff_getElem?.mpr hi
  exact List.mem_map_of_mem _ this

/-- C7: a sync payload with a malformed entry is rejected atomically — the
store stays exactly as it was, the result is a validation error, and every
offending field of the malformed entry is named (with its entry index) in
the error. -/
theorem sync_validation_atomic (s : Store) (userId : String)
    (entries : List SyncEntry) (now : Nat) (i : Nat) (e : SyncEntry)
    (hi : entries[i]? = some e) (hbad : validateSyncEntry e ≠ []) :
    (syncDevicesRoute s userId entries now).1 = s ∧
    ∃ errs, (syncDevicesRoute s userId entries now).2 = Except.error errs ∧
      errs ≠ [] ∧ ∀ f ∈ validateSyncEntry e, (i, f) ∈ errs := by
  obtain ⟨f, hf⟩ : ∃ f, f ∈ validateSyncEntry e := List.exists_mem_of_ne_nil _ hbad
  have hmem : (i, f) ∈ validateSyncBody entries := mem_validateSyncBody hi hf
  have hnonempty : (validateSyncBody entries).isEmpty = false := by
    cases h : validateSyncBody entries with
    | nil => rw [h] at hmem; cases hmem
    | cons a l => rfl
  unfold syncDevicesRoute
  simp only [hnonempty, Bool.false_eq_true, if_false]
  refine ⟨trivial, validateSyncBody entries, rfl, fun hcontr => ?_,
    fun g hg => mem_validateSyncBody hi hg⟩
  rw [hcontr] at hmem
  cases hmem

/-- C7 witness: a payload whose second entry has a malformed hardware
address. -/
theorem sync_validation_atomic_witness :
    (syncDevicesRoute alreadyRevokedStore "u"
      [{ name := "ok", macAddress := some "AA:BB:CC:DD:EE:01", status := "online", ipAddress := none },
       { name := "bad", macAddress := some "not-a-mac", status := "online", ipAddress := none }]
      4).1 = alreadyRevokedStore ∧
    ∃ errs, (syncDevicesRoute alreadyRevokedStore "u"
      [{ name := "ok", macAddress := some "AA:BB:CC:DD:EE:01", status := "online", ipAddress := none },
       { name := "bad", macAddress := some "not-a-mac", status := "online", ipAddress := none }]
      4).2 = Except.error errs ∧
      errs ≠ [] ∧
      ∀ f ∈ validateSyncEntry
        { name := "bad", macAddress := some "not-a-mac", status := "online", ipAddress := none },
        (1, f) ∈ errs :=
  sync_validation_atomic alreadyRevokedStore "u"
    [{ name := "ok", macAddress := some "AA:BB:CC:DD:EE:01", status := "online", ipAddress := none },
     { name := "bad", macAddress := some "not-a-mac", status := "online", ipAddress := none }]
    4 1
    { name := "bad", macAddress := some "not-a-mac", status := "online", ipAddress := none }
    (by decide) (by decide)

/-! ## Frame lemmas for the storage operations -/

@[simp] theorem updateNetworkState_devices (s : Store) (did : Nat) (ip : String)
    (b : Bool) (now : Nat) :
    (updateNetworkState s did ip b now).devices = s.devices := by
  unfold updateNetworkState
  split <;> rfl

@[simp] theorem updateNetworkState_nextDeviceId (s : Store) (did : Nat) (ip : String)
    (b : Bool) (now : Nat) :
    (updateNetworkState s did ip b now).nextDeviceId = s.nextDeviceId := by
  unfold updateNetworkState
  split <;> rfl

@[simp] theorem applyIp_devices (s : Store) (did : Nat) (o : Option String) (now : Nat) :
    (applyIp s did o now).devices = s.devices := by
  unfold applyIp
  cases jsOrNull o with
  | none => rfl
  | some ip => exact updateNetworkState_devices s did ip false now

@[simp] theorem applyIp_nextDeviceId (s : Store) (did : Nat) (o : Option String) (now : Nat) :
    (applyIp s did o now).nextDeviceId = s.nextDeviceId := by
  unfold applyIp
  cases jsOrNull o with
  | none => rfl
  | some ip => exact updateNetworkState_nextDeviceId s did ip false now

@[simp] theorem updateDevice_devices (s : Store) (i : Nat) (upd : DeviceUpdates) (now : Nat) :
    (updateDevice s i upd now).1.devices =
      s.devices.map (fun d => if d.id == i then applyDeviceUpdates d upd now else d) := rfl

@[simp] theorem updateDevice_nextDeviceId (s : Store) (i : Nat) (upd : DeviceUpdates) (now : Nat) :
    (updateDevice s i upd now).1.nextDeviceId = s.nextDeviceId := rfl

@[simp] theorem createDevice_devices (s : Store) (u n : String) (mac : Option String)
    (st : String) (now : Nat) :
    (createDevice s u n mac st now).1.devices =
      s.devices ++ [(createDevice s u n mac st now).2] := rfl

@[simp] theorem createDevice_snd (s : Store) (u n : String) (mac : Option String)
    (st : String) (now : Nat) :
    (createDevice s u n mac st now).2 =
      { id := s.nextDeviceId, userId := u, name := n, macAddress := mac, status := st,
        lastSeenAt := now, createdAt := now } := rfl

@[simp] theorem createDevice_nextDeviceId (s : Store) (u n : String) (mac : Option String)
    (st : String) (now : Nat) :
    (createDevice s u n mac st now).1.nextDeviceId = s.nextDeviceId + 1 := rfl

@[simp] theorem deleteDevice_devices (s : Store) (i : Nat) :
    (deleteDevice s i).devices = s.devices.filter (fun d => d.id != i) := rfl

@[simp] theorem deleteDevice_nextDeviceId (s : Store) (i : Nat) :
    (deleteDevice s i).nextDeviceId = s.nextDeviceId := rfl

@[simp] theorem applyDeviceUpdates_id (d : Device) (upd : DeviceUpdates) (now : Nat) :
    (applyDeviceUpdates d upd now).id = d.id := rfl

@[simp] theorem applyDeviceUpdates_userId (d : Device) (upd : DeviceUpdates) (now : Nat) :
    (applyDeviceUpdates d upd now).userId = d.userId := rfl

/-- The sync-loop updates carry no `macAddress` field, so the MAC is kept. -/
theorem applyDeviceUpdates_macAddress (d : Device) (upd : DeviceUpdates) (now : Nat)
    (h : upd.macAddress = none) :
    (applyDeviceUpdates d upd now).macAddress = d.macAddress := by
  unfold applyDeviceUpdates
  rw [h]
  rfl

/-! ## The three shapes of a sync-loop step -/

theorem syncStep_match {e : SyncEntry} {mac : String} {m : MacMap} {ex : Device}
    (userId : String) (now : Nat) (s : Store) (c u : Nat)
    (hmac : jsOrNull e.macAddress = some mac) (hget : mapGet m mac = some ex) :
    syncStep userId now (s, m, c, u) e =
      (applyIp (updateDevice s ex.id { name := some e.name, status := some e.status } now).1
         ex.id e.ipAddress now,
       mapDelete m mac, c, u + 1) := by
  simp only [syncStep, hmac, hget]

theorem syncStep_create {e : SyncEntry} {mac : String} {m : MacMap}
    (userId : String) (now : Nat) (s : Store) (c u : Nat)
    (hmac : jsOrNull e.macAddress = some mac) (hget : mapGet m mac = none) :
    syncStep userId now (s, m, c, u) e =
      (applyIp (createDevice s userId e.name (some mac) e.status now).1
         (createDevice s userId e.name (some mac) e.status now).2.id e.ipAddress now,
       m, c + 1, u) := by
  simp only [syncStep, hmac, hget]

theorem syncStep_nomac {e : SyncEntry} {m : MacMap}
    (userId : String) (now : Nat) (s : Store) (c u : Nat)
    (hmac : jsOrNull e.macAddress = none) :
    syncStep userId now (s, m, c, u) e =
      (applyIp (createDevice s userId e.name none e.status now).1
         (createDevice s userId e.name none e.status now).2.id e.ipAddress now,
       m, c + 1, u) := by
  simp only [syncStep, hmac]

/-- Each loop iteration increments exactly one of the `created`/`updated`
counters. -/
theorem syncFold_counters (userId : String) (now : Nat) :
    ∀ (entries : List SyncEntry) (s : Store) (m : MacMap) (c u : Nat),
      (entries.foldl (syncStep userId now) (s, m, c, u)).2.2.1 +
        (entries.foldl (syncStep userId now) (s, m, c, u)).2.2.2 =
      c + u + entries.length := by
  intro entries
  induction entries with
  | nil => intro s m c u; simp
  | cons e rest ih =>
    intro s m c u
    rw [List.foldl_cons]
    rw [List.length_cons]
    rcases hmac : jsOrNull e.macAddress with _ | mac
    · rw [syncStep_nomac userId now s c u hmac, ih]
      omega
    · rcases hget : mapGet m mac with _ | ex
      · rw [syncStep_create userId now s c u hmac hget, ih]
        omega
      · rw [syncStep_match userId now s c u hmac hget, ih]
        omega

/-! ## MAC-map toolkit -/

/-- The MACs reported by a payload, after JS truthiness coercion. -/
def entryMacs (entries : List SyncEntry) : List String :=
  entries.filterMap (fun e => jsOrNull e.macAddress)

theorem mapGet_eq_none_iff {m : MacMap} {k : String} :
    mapGet m k = none ↔ ∀ kv ∈ m, kv.1 ≠ k := by
  unfold mapGet
  rw [Option.map_eq_none', List.find?_eq_none]
  constructor
  · intro h kv hkv
    simpa using h kv hkv
  · intro h kv hkv
    simpa using h kv hkv

theorem mapGet_isSome_iff {m : MacMap} {k : String} :
    (mapGet m k).isSome ↔ ∃ kv ∈ m, kv.1 = k := by
  unfold mapGet
  rw [Option.isSome_map', List.find?_isSome]
  constructor
  · rintro ⟨kv, hkv, hp⟩
    exact ⟨kv, hkv, by simpa using hp⟩
  · rintro ⟨kv, hkv, hp⟩
    exact ⟨kv, hkv, by simpa using hp⟩

theorem mapDelete_mem {m : MacMap} {k : String} {kv : String × Device}
    (h : kv ∈ mapDelete m k) : kv ∈ m :=
  List.mem_of_mem_filter h

theorem mapDelete_keys (m : MacMap) (k : String) :
    (mapDelete m k).map (·.1) = (m.map (·.1)).filter (fun a => a != k) := by
  unfold mapDelete
  induction m with
  | nil => rfl
  | cons kv rest ih =>
    by_cases h : kv.1 = k
    · simp [h, ih]
    · simp [h, ih]

/-- Every entry of the MAC map is a user device with that (truthy) MAC as
key. -/
theorem mkMacMap_mem {ds : List Device} {kv : String × Device}
    (h : kv ∈ mkMacMap ds) :
    kv.2 ∈ ds ∧ kv.2.macAddress = some kv.1 ∧ kv.1 ≠ "" := by
  have hins : ∀ (m : MacMap) (k : String) (v : Device) (kv : String × Device),
      kv ∈ mapInsert m k v → kv ∈ m ∨ kv = (k, v) := by
    intro m k v kv hkv
    unfold mapInsert at hkv
    split at hkv
    · rcases List.mem_map.mp hkv with ⟨kv', hkv', heq⟩
      by_cases hk : kv'.1 = k
      · right
        rw [← heq]
        simp [hk]
      · left
        rw [← heq]
        simpa [hk] using hkv'
    · rcases List.mem_append.mp hkv with h | h
      · exact Or.inl h
      · right; simpa using h
  have key : ∀ (l : List Device) (acc : MacMap),
      (∀ kv ∈ acc, kv.2 ∈ ds ∧ kv.2.macAddress = some kv.1 ∧ kv.1 ≠ "") →
      (∀ d ∈ l, d ∈ ds ∧ truthy d.macAddress) →
      ∀ kv ∈ l.foldl (fun m d => mapInsert m (d.macAddress.getD "") d) acc,
        kv.2 ∈ ds ∧ kv.2.macAddress = some kv.1 ∧ kv.1 ≠ "" := by
    intro l
    induction l with
    | nil => intro acc hacc _ kv hkv; exact hacc kv hkv
    | cons d rest ih =>
      intro acc hacc hl kv hkv
      rw [List.foldl_cons] at hkv
      refine ih _ ?_ (fun x hx => hl x (List.mem_cons_of_mem d hx)) kv hkv
      intro kv' hkv'
      rcases hins acc (d.macAddress.getD "") d kv' hkv' with h | h
      · exact hacc kv' h
      · obtain ⟨hds, htr⟩ := hl d (List.mem_cons_self d rest)
        rcases hm : d.macAddress with _ | mval
        · rw [hm] at htr; cases htr
        · have hne : mval ≠ "" := by
            rw [hm] at htr; simpa [truthy] using htr
          subst h
          refine ⟨hds, ?_, ?_⟩
          · show d.macAddress = some (d.macAddress.getD "")
            rw [hm]
            rfl
          · show d.macAddress.getD "" ≠ ""
            rw [hm]
            exact hne
  exact key _ [] (by intro kv hkv; cases hkv)
    (fun d hd => ⟨(List.mem_filter.mp hd).1, (List.mem_filter.mp hd).2⟩) kv h

/-- Map evolution over the sync loop: the final map is the initial one with
every reported (truthy) MAC removed. -/
theorem syncFold_map (userId : String) (now : Nat) :
    ∀ (entries : List SyncEntry) (s : Store) (m : MacMap) (c u : Nat),
      (entries.foldl (syncStep userId now) (s, m, c, u)).2.1 =
        m.filter (fun kv => decide (kv.1 ∉ entryMacs entries)) := by
  intro entries
  induction entries with
  | nil =>
    intro s m c u
    simp [entryMacs]
  | cons e rest ih =>
    intro s m c u
    rw [List.foldl_cons]
    rcases hmac : jsOrNull e.macAddress with _ | mac
    · rw [syncStep_nomac userId now s c u hmac, ih]
      have : entryMacs (e :: rest) = entryMacs rest := by
        simp [entryMacs, List.filterMap_cons, hmac]
      rw [this]
    · have hcons : entryMacs (e :: rest) = mac :: entryMacs rest := by
        simp [entryMacs, List.filterMap_cons, hmac]
      rcases hget : mapGet m mac with _ | ex
      · rw [syncStep_create userId now s c u hmac hget, ih, hcons]
        apply List.filter_congr
        intro kv hkv
        have : kv.1 ≠ mac := mapGet_eq_none_iff.mp hget kv hkv
        simp [List.mem_cons, this]
      · rw [syncStep_match userId now s c u hmac hget, ih, hcons]
        unfold mapDelete
        rw [List.filter_filter]
        apply List.filter_congr
        intro kv _
        by_cases h : kv.1 = mac <;> simp [h, List.mem_cons]

/-! ## A row no loop step touches is preserved verbatim (towards C9) -/

/-- Mapping a function that keeps ids, and is the identity on every element
with the watched id, does not change the watched filter. -/
theorem filter_id_map_of_fix (i : Nat) (f : Device → Device)
    (hid : ∀ x, (f x).id = x.id) (hfix : ∀ x, x.id = i → f x = x) :
    ∀ l : List Device,
      (l.map f).filter (fun x => x.id == i) = l.filter (fun x => x.id == i) := by
  intro l
  induction l with
  | nil => rfl
  | cons a rest ih =>
    simp only [List.map_cons, List.filter_cons]
    by_cases h : a.id = i
    · rw [show ((f a).id == i) = true by simp [hid, h],
        show (a.id == i) = true by simp [h], hfix a h, ih]
    · rw [show ((f a).id == i) = false by simp [hid, h],
        show (a.id == i) = false by simp [h], ih]
      simp

theorem filter_id_updateDevice {j : Nat} {d : Device} (hne : j ≠ d.id)
    (s : Store) (upd : DeviceUpdates) (now : Nat) :
    (updateDevice s j upd now).1.devices.filter (fun x => x.id == d.id) =
      s.devices.filter (fun x => x.id == d.id) := by
  rw [updateDevice_devices]
  apply filter_id_map_of_fix
  · intro x
    by_cases h : x.id = j <;> simp [h]
  · intro x hx
    have : (x.id == j) = false := by
      simp only [beq_eq_false_iff_ne]
      rw [hx]
      exact fun hc => hne hc.symm
    simp [this]

theorem filter_id_deleteDevice {j : Nat} {d : Device} (hne : j ≠ d.id) (s : Store) :
    (deleteDevice s j).devices.filter (fun x => x.id == d.id) =
      s.devices.filter (fun x => x.id == d.id) := by
  rw [deleteDevice_devices, List.filter_filter]
  apply List.filter_congr
  intro x _
  by_cases h : x.id = d.id
  · have : (x.id != j) = true := by
      simp only [bne_iff_ne]
      rw [h]
      exact fun hc => hne hc.symm
    simp only [h, this]
    simp
    omega
  · simp [h]

/-- Through the whole sync loop, a device row whose id is hit by no map entry
and is below the id counter stays exactly as it is (and the map never gains
an entry with its id). -/
theorem syncFold_preserves_row (userId : String) (now : Nat) (d : Device) :
    ∀ (entries : List SyncEntry) (s : Store) (m : MacMap) (c u : Nat),
      (∀ kv ∈ m, kv.2.id ≠ d.id) →
      d.id < s.nextDeviceId →
      s.devices.filter (fun x => x.id == d.id) = [d] →
      (∀ kv ∈ (entries.foldl (syncStep userId now) (s, m, c, u)).2.1, kv.2.id ≠ d.id) ∧
      d.id < (entries.foldl (syncStep userId now) (s, m, c, u)).1.nextDeviceId ∧
      (entries.foldl (syncStep userId now) (s, m, c, u)).1.devices.filter
        (fun x => x.id == d.id) = [d] := by
  intro entries
  induction entries with
  | nil => intro s m c u hm hlt hfil; exact ⟨hm, hlt, hfil⟩
  | cons e rest ih =>
    intro s m c u hm hlt hfil
    rw [List.foldl_cons]
    rcases hmac : jsOrNull e.macAddress with _ | mac
    · rw [syncStep_nomac userId now s c u hmac]
      apply ih
      · exact hm
      · simpa using Nat.lt_succ_of_lt hlt
      · rw [applyIp_devices, createDevice_devices, List.filter_append]
        have : ([(createDevice s userId e.name none e.status now).2].filter
            (fun x => x.id == d.id)) = [] := by
          simp only [createDevice_snd, List.filter_cons, List.filter_nil]
          rw [show (s.nextDeviceId == d.id) = false by
            simp only [beq_eq_false_iff_ne]; omega]
          rfl
        rw [this, List.append_nil, hfil]
    · rcases hget : mapGet m mac with _ | ex
      · rw [syncStep_create userId now s c u hmac hget]
        apply ih
        · exact hm
        · simpa using Nat.lt_succ_of_lt hlt
        · rw [applyIp_devices, createDevice_devices, List.filter_append]
          have : ([(createDevice s userId e.name (some mac) e.status now).2].filter
              (fun x => x.id == d.id)) = [] := by
            simp only [createDevice_snd, List.filter_cons, List.filter_nil]
            rw [show (s.nextDeviceId == d.id) = false by
              simp only [beq_eq_false_iff_ne]; omega]
            rfl
          rw [this, List.append_nil, hfil]
      · rw [syncStep_match userId now s c u hmac hget]
        have hexid : ex.id ≠ d.id := by
          have hkv : (mac, ex) ∈ m := by
            unfold mapGet at hget
            rcases hfind : m.find? (fun kv => kv.1 == mac) with _ | kv
            · rw [hfind] at hget; cases hget
            · rw [hfind] at hget
              have h2 : kv.2 = ex := by simpa using hget
              have h1 : kv.1 = mac := by simpa using List.find?_some hfind
              have := List.mem_of_find?_eq_some hfind
              rw [← h1, ← h2]
              simpa using this
          exact hm (mac, ex) hkv
        apply ih
        · intro kv hkv
          exact hm kv (mapDelete_mem hkv)
        · simpa using hlt
        · rw [applyIp_devices]
          rw [filter_id_updateDevice hexid s _ now]
          exact hfil

/-- The remainder-deletion phase also preserves such a row. -/
theorem deleteFold_preserves_row (d : Device) :
    ∀ (vs : List Device) (s : Store),
      (∀ v ∈ vs, v.id ≠ d.id) →
      s.devices.filter (fun x => x.id == d.id) = [d] →
      ((vs.foldl (fun st dd => deleteDevice st dd.id) s).devices.filter
        (fun x => x.id == d.id)) = [d] := by
  intro vs
  induction vs with
  | nil => intro s _ hfil; exact hfil
  | cons v rest ih =>
    intro s hv hfil
    rw [List.foldl_cons]
    apply ih
    · intro x hx; exact hv x (List.mem_cons_of_mem v hx)
    · rw [filter_id_deleteDevice (hv v (List.mem_cons_self v rest)) s]
      exact hfil

/-- C9: a stored device whose hardware address is null is never matched and
never deleted by a sync call: whatever the payload, its row is still present,
unchanged, and unique after the call. -/
theorem sync_null_mac_untouched (s : Store) (userId : String)
    (entries : List SyncEntry) (now : Nat) (d : Device)
    (hwf : s.wf) (hd : d ∈ s.devices) (hmac : d.macAddress = none) :
    (syncDevicesRoute s userId entries now).1.devices.filter
      (fun x => x.id == d.id) = [d] := by
  have hfil : s.devices.filter (fun x => x.id == d.id) = [d] :=
    filter_key_of_nodup hwf.1 hd
  unfold syncDevicesRoute
  cases hv : (validateSyncBody entries).isEmpty
  · simp only [hv, Bool.false_eq_true, if_false]
    exact hfil
  · simp only [hv, if_true]
    show (syncDevices s userId entries now).1.devices.filter (fun x => x.id == d.id) = [d]
    unfold syncDevices
    have hm0 : ∀ kv ∈ mkMacMap (getDevices s userId), kv.2.id ≠ d.id := by
      intro kv hkv
      obtain ⟨hmem, hmacv, _⟩ := mkMacMap_mem hkv
      have hkvdev : kv.2 ∈ s.devices := List.mem_of_mem_filter hmem
      intro hid
      have heq : kv.2 = d := List.inj_on_of_nodup_map hwf.1 hkvdev hd hid
      rw [heq, hmac] at hmacv
      cases hmacv
    obtain ⟨hmfin, _, hfilfin⟩ :=
      syncFold_preserves_row userId now d entries s
        (mkMacMap (getDevices s userId)) 0 0 hm0 (hwf.2 d hd) hfil
    apply deleteFold_preserves_row
    · intro v hv
      rcases List.mem_map.mp hv with ⟨kv, hkv, hkveq⟩
      rw [← hkveq]
      exact hmfin kv hkv
    · exact hfilfin

/-- C9 witness: a null-MAC device survives a sync that deletes its sibling
and creates a new device. -/
theorem sync_null_mac_untouched_witness :
    (let dNull : Device :=
      { id := 0, userId := "u", name := "ghost", macAddress := none, status := "offline",
        lastSeenAt := 0, createdAt := 0 }
     let dMac : Device :=
      { id := 1, userId := "u", name := "pc", macAddress := some "AA:BB:CC:DD:EE:01",
        status := "online", lastSeenAt := 0, createdAt := 0 }
     let s : Store :=
      { devices := [dNull, dMac], networkStates := [], agentTokens := [], nextDeviceId := 2 }
     (syncDevicesRoute s "u"
        [{ name := "new", macAddress := some "AA:BB:CC:DD:EE:02", status := "online",
           ipAddress := none }] 7).1.devices.filter (fun x => x.id == dNull.id) = [dNull]) := by
  exact sync_null_mac_untouched _ "u" _ 7 _ (by decide) (by decide) (by decide)

/-! ## The worked reconciliation example (C3) -/

/-- A payload that passes validation reaches the reconciliation loop. -/
theorem syncDevicesRoute_valid {entries : List SyncEntry}
    (h : validateSyncBody entries = []) (s : Store) (userId : String) (now : Nat) :
    syncDevicesRoute s userId entries now =
      ((syncDevices s userId entries now).1,
       Except.ok (syncDevices s userId entries now).2) := by
  unfold syncDevicesRoute
  simp [h]

theorem filter_userId_map_update (u : String) (f : Device → Device)
    (huser : ∀ x, (f x).userId = x.userId) (l : List Device) :
    (l.map f).filter (fun x => x.userId == u) =
      (l.filter (fun x => x.userId == u)).map f := by
  rw [List.filter_map]
  congr 1
  apply List.filter_congr
  intro x _
  simp [Function.comp, huser]

/-- C3: for an owner storing exactly the two devices `d1` (MAC `M1`) and `d2`
(MAC `M2`), a sync reporting `M1` and a fresh `M3` returns
`created=1, updated=1, deleted=1` and leaves the owner with exactly two
devices carrying MACs `M1` and `M3`. -/
theorem sync_reconcile_two_example
    (s : Store) (u n1 n3 M1 M2 M3 st1 st3 : String) (ip1 ip3 : Option String)
    (d1 d2 : Device) (now : Nat)
    (hwf : s.wf)
    (hfil : getDevices s u = [d1, d2])
    (h1 : d1.macAddress = some M1) (h2 : d2.macAddress = some M2)
    (hM1 : M1 ≠ "") (hM2 : M2 ≠ "") (hM3 : M3 ≠ "")
    (h12 : M1 ≠ M2) (h31 : M3 ≠ M1) (h32 : M3 ≠ M2)
    (hval : validateSyncBody
      [{ name := n1, macAddress := some M1, status := st1, ipAddress := ip1 },
       { name := n3, macAddress := some M3, status := st3, ipAddress := ip3 }] = []) :
    (syncDevicesRoute s u
      [{ name := n1, macAddress := some M1, status := st1, ipAddress := ip1 },
       { name := n3, macAddress := some M3, status := st3, ipAddress := ip3 }] now).2 =
      Except.ok { created := 1, updated := 1, deleted := 1 } ∧
    (getDevices (syncDevicesRoute s u
      [{ name := n1, macAddress := some M1, status := st1, ipAddress := ip1 },
       { name := n3, macAddress := some M3, status := st3, ipAddress := ip3 }] now).1 u).map
      (·.macAddress) = [some M1, some M3] := by
  have hd1g : d1 ∈ getDevices s u := by rw [hfil]; exact List.mem_cons_self _ _
  have hd2g : d2 ∈ getDevices s u := by
    rw [hfil]; exact List.mem_cons_of_mem _ (List.mem_cons_self _ _)
  have hd1mem : d1 ∈ s.devices := List.mem_of_mem_filter hd1g
  have hd2mem : d2 ∈ s.devices := List.mem_of_mem_filter hd2g
  have hu2 : d2.userId = u := by
    have := (List.mem_filter.mp hd2g).2
    simpa using this
  have hne12 : d1.id ≠ d2.id := by
    have hids : ((getDevices s u).map (·.id)).Nodup :=
      ((List.filter_sublist _).map _).nodup hwf.1
    rw [hfil] at hids
    simp only [List.map_cons, List.map_nil, List.nodup_cons, List.mem_singleton,
      List.mem_cons, List.not_mem_nil, or_false] at hids
    exact hids.1
  have hnd2 : d2.id < s.nextDeviceId := hwf.2 d2 hd2mem
  -- the MAC map of the two stored devices
  have hm0 : mkMacMap (getDevices s u) = [(M1, d1), (M2, d2)] := by
    rw [hfil]
    unfold mkMacMap
    rw [show ([d1, d2].filter (fun d => truthy d.macAddress)) = [d1, d2] by
      simp [truthy, h1, h2, hM1, hM2]]
    simp only [List.foldl_cons, List.foldl_nil, h1, h2, Option.getD_some]
    rw [show mapInsert [] M1 d1 = [(M1, d1)] from rfl]
    unfold mapInsert
    rw [show ([(M1, d1)].any (fun kv => kv.1 == M2)) = false by simp [h12]]
    rfl
  -- the two loop steps
  have hj1 : jsOrNull (some M1) = some M1 := by simp [jsOrNull, hM1]
  have hj3 : jsOrNull (some M3) = some M3 := by simp [jsOrNull, hM3]
  have hget1 : mapGet [(M1, d1), (M2, d2)] M1 = some d1 := by
    simp [mapGet]
  have hdel1 : mapDelete [(M1, d1), (M2, d2)] M1 = [(M2, d2)] := by
    have hne : M2 ≠ M1 := fun h => h12 h.symm
    simp [mapDelete, hne]
  have hget3 : mapGet [(M2, d2)] M3 = none := by
    have hne : M2 ≠ M3 := fun h => h32 h.symm
    simp [mapGet, hne]
  rw [syncDevicesRoute_valid hval]
  unfold syncDevices
  rw [hm0]
  have hs1 : syncStep u now (s, [(M1, d1), (M2, d2)], 0, 0)
      { name := n1, macAddress := some M1, status := st1, ipAddress := ip1 } =
      (applyIp (updateDevice s d1.id
        { name := some n1, status := some st1, macAddress := none } now).1 d1.id ip1 now,
       [(M2, d2)], 0, 1) := by
    rw [syncStep_match u now s 0 0 hj1 hget1, hdel1]
  have hs2 : syncStep u now
      (applyIp (updateDevice s d1.id
        { name := some n1, status := some st1, macAddress := none } now).1 d1.id ip1 now,
       [(M2, d2)], 0, 1)
      { name := n3, macAddress := some M3, status := st3, ipAddress := ip3 } =
      (applyIp (createDevice (applyIp (updateDevice s d1.id
          { name := some n1, status := some st1, macAddress := none } now).1 d1.id ip1 now)
          u n3 (some M3) st3 now).1
        (createDevice (applyIp (updateDevice s d1.id
          { name := some n1, status := some st1, macAddress := none } now).1 d1.id ip1 now)
          u n3 (some M3) st3 now).2.id ip3 now,
       [(M2, d2)], 1, 1) := by
    rw [syncStep_create u now _ 0 1 hj3 hget3]
  rw [List.foldl_cons, hs1, List.foldl_cons, hs2, List.foldl_nil]
  unfold syncRemaining
  refine ⟨rfl, ?_⟩
  show (getDevices (deleteDevice _ d2.id) u).map (·.macAddress) = [some M1, some M3]
  have hS1next : ((applyIp (updateDevice s d1.id
      { name := some n1, status := some st1, macAddress := none } now).1 d1.id ip1 now)).nextDeviceId
      = s.nextDeviceId := by
    rw [applyIp_nextDeviceId, updateDevice_nextDeviceId]
  unfold getDevices
  rw [deleteDevice_devices, List.filter_comm, applyIp_devices, createDevice_devices,
    createDevice_snd, hS1next, applyIp_devices, updateDevice_devices, List.filter_append,
    filter_userId_map_update u _ (fun x => by by_cases h : x.id = d1.id <;> simp [h]) s.devices,
    show s.devices.filter (fun x => x.userId == u) = [d1, d2] from hfil]
  have hf2 : ([d1, d2].map (fun d => if d.id == d1.id then applyDeviceUpdates d
      { name := some n1, status := some st1, macAddress := none } now else d)) =
      [applyDeviceUpdates d1 { name := some n1, status := some st1, macAddress := none } now, d2] := by
    have hne : (d2.id == d1.id) = false := by
      simp only [beq_eq_false_iff_ne]
      exact fun h => hne12 h.symm
    simp [hne]
    exact fun h => absurd h.symm hne12
  rw [hf2]
  have hnd : (List.filter (fun x => x.userId == u)
      [({ id := s.nextDeviceId, userId := u, name := n3, macAddress := some M3, status := st3,
          lastSeenAt := now, createdAt := now } : Device)]) =
      [{ id := s.nextDeviceId, userId := u, name := n3, macAddress := some M3, status := st3,
         lastSeenAt := now, createdAt := now }] := by simp
  rw [hnd]
  have hb1 : ((applyDeviceUpdates d1
      { name := some n1, status := some st1, macAddress := none } now).id != d2.id) = true := by
    simp only [applyDeviceUpdates_id, bne_iff_ne]
    exact hne12
  have hb2 : (d2.id != d2.id) = false := by simp
  have hb3 : (s.nextDeviceId != d2.id) = true := by
    simp only [bne_iff_ne]
    omega
  simp only [List.cons_append, List.nil_append, List.filter_cons, hb1, hb2, hb3,
    if_true, if_false, Bool.false_eq_true, List.filter_nil, List.map_cons, List.map_nil]
  rw [applyDeviceUpdates_macAddress d1 _ now rfl, h1]

/-- Two concrete stored devices for the C3 witness. -/
def exampleStore : Store :=
  { devices :=
      [{ id := 0, userId := "u", name := "PC", macAddress := some "AA:BB:CC:DD:EE:01",
         status := "online", lastSeenAt := 0, createdAt := 0 },
       { id := 1, userId := "u", name := "Tablet", macAddress := some "AA:BB:CC:DD:EE:02",
         status := "online", lastSeenAt := 0, createdAt := 0 }]
    networkStates := []
    agentTokens := []
    nextDeviceId := 2 }

/-- C3 witness. -/
theorem sync_reconcile_two_example_witness :
    (syncDevicesRoute exampleStore "u"
      [{ name := "PC", macAddress := some "AA:BB:CC:DD:EE:01", status := "online", ipAddress := none },
       { name := "Phone", macAddress := some "AA:BB:CC:DD:EE:03", status := "online",
         ipAddress := some "192.168.1.7" }] 5).2 =
      Except.ok { created := 1, updated := 1, deleted := 1 } ∧
    (getDevices (syncDevicesRoute exampleStore "u"
      [{ name := "PC", macAddress := some "AA:BB:CC:DD:EE:01", status := "online", ipAddress := none },
       { name := "Phone", macAddress := some "AA:BB:CC:DD:EE:03", status := "online",
         ipAddress := some "192.168.1.7" }] 5).1 "u").map (·.macAddress) =
      [some "AA:BB:CC:DD:EE:01", some "AA:BB:CC:DD:EE:03"] :=
  sync_reconcile_two_example exampleStore "u" "PC" "Phone"
    "AA:BB:CC:DD:EE:01" "AA:BB:CC:DD:EE:02" "AA:BB:CC:DD:EE:03" "online" "online"
    none (some "192.168.1.7")
    { id := 0, userId := "u", name := "PC", macAddress := some "AA:BB:CC:DD:EE:01",
      status := "online", lastSeenAt := 0, createdAt := 0 }
    { id := 1, userId := "u", name := "Tablet", macAddress := some "AA:BB:CC:DD:EE:02",
      status := "online", lastSeenAt := 0, createdAt := 0 }
    5 (by decide) (by decide) rfl rfl (by decide) (by decide) (by decide)
    (by decide) (by decide) (by decide) (by decide)

/-! ## The owner's truthy-MAC multiset through a sync call -/

/-- The MACs of one owner's devices that participate in map matching (the
truthy ones), in table order. -/
def userMacs (u : String) (l : List Device) : List String :=
  ((l.filter (fun d => d.userId == u)).filter (fun d => truthy d.macAddress)).map
    (fun d => d.macAddress.getD "")

/-- Filtering and projecting after a map that preserves the relevant fields
is as filtering and projecting the original list. -/
theorem filter_map_proj {β : Type} (f : Device → Device) (p : Device → Bool)
    (g : Device → β) (hp : ∀ x, p (f x) = p x) (hg : ∀ x, g (f x) = g x)
    (l : List Device) :
    ((l.map f).filter p).map g = (l.filter p).map g := by
  rw [List.filter_map, List.map_map]
  have h1 : l.filter (p ∘ f) = l.filter p :=
    List.filter_congr (fun x _ => hp x)
  rw [h1]
  exact List.map_congr_left (fun x _ => hg x)

/-- Mapping a function that preserves owner and MAC over the device table
leaves the owner's truthy-MAC multiset untouched. -/
theorem userMacs_map (u : String) (f : Device → Device)
    (hu : ∀ x, (f x).userId = x.userId) (hm : ∀ x, (f x).macAddress = x.macAddress)
    (l : List Device) : userMacs u (l.map f) = userMacs u l := by
  unfold userMacs
  have h1 : (l.map f).filter (fun d => d.userId == u) =
      (l.filter (fun d => d.userId == u)).map f := by
    rw [List.filter_map]
    congr 1
    exact List.filter_congr (fun x _ => by rw [Function.comp]; rw [hu x])
  rw [h1]
  exact filter_map_proj f _ _ (fun x => by show truthy _ = truthy _; rw [hm x])
    (fun x => by show (f x).macAddress.getD "" = _; rw [hm x]) _

/-- A device update carrying no MAC leaves the owner's truthy-MAC multiset
untouched. -/
theorem userMacs_map_update (u : String) (j : Nat) (upd : DeviceUpdates)
    (hupd : upd.macAddress = none) (now : Nat) (l : List Device) :
    userMacs u (l.map (fun d => if d.id == j then applyDeviceUpdates d upd now else d)) =
      userMacs u l := by
  apply userMacs_map
  · intro x
    by_cases h : x.id = j <;> simp [h]
  · intro x
    by_cases h : x.id = j
    · simp only [h, beq_self_eq_true, if_true]
      exact applyDeviceUpdates_macAddress x upd now hupd
    · simp [h]

@[simp] theorem userMacs_append (u : String) (l1 l2 : List Device) :
    userMacs u (l1 ++ l2) = userMacs u l1 ++ userMacs u l2 := by
  unfold userMacs
  rw [List.filter_append, List.filter_append, List.map_append]

theorem userMacs_singleton_truthy (u : String) (d : Device) {m : String}
    (hu : d.userId = u) (hm : d.macAddress = some m) (hne : m ≠ "") :
    userMacs u [d] = [m] := by
  unfold userMacs
  rw [show ([d].filter (fun x => x.userId == u)) = [d] by simp [hu]]
  rw [show ([d].filter (fun x => truthy x.macAddress)) = [d] by simp [truthy, hm, hne]]
  simp [hm]

theorem userMacs_singleton_none (u : String) (d : Device)
    (hm : d.macAddress = none) : userMacs u [d] = [] := by
  unfold userMacs
  rcases h : [d].filter (fun x => x.userId == u) with _ | ⟨x, tl⟩
  · rw [h]
    rfl
  · have hx : x = d := by
      have := List.mem_of_mem_filter (l := [d]) (by rw [h]; exact List.mem_cons_self x tl)
      simpa using this
    have htl : tl = [] := by
      have hsub := List.filter_sublist (l := [d]) (p := fun x => x.userId == u)
      rw [h] at hsub
      rcases tl with _ | _
      · rfl
      · have := hsub.length_le
        simp at this
    subst hx
    subst htl
    rw [h, show ([x].filter (fun y => truthy y.macAddress)) = [] by simp [truthy, hm]]
    rfl

/-- Removing a present key from a map with duplicate-free keys is, on the key
multiset, removing one occurrence of it. -/
theorem keys_perm_delete {m : MacMap} {mac : String} {ex : Device}
    (hN : (m.map (·.1)).Nodup) (hget : mapGet m mac = some ex) :
    List.Perm (m.map (·.1)) (mac :: (mapDelete m mac).map (·.1)) := by
  have hmac_mem : mac ∈ m.map (·.1) := by
    have : (mapGet m mac).isSome := by rw [hget]; rfl
    rcases mapGet_isSome_iff.mp this with ⟨kv, hkv, hk⟩
    rw [← hk]
    exact List.mem_map_of_mem _ hkv
  have hdel : (mapDelete m mac).map (·.1) = (m.map (·.1)).filter (fun a => a != mac) :=
    mapDelete_keys m mac
  have herase : (m.map (·.1)).erase mac = (m.map (·.1)).filter (fun a => a != mac) := by
    rw [List.Nodup.erase_eq_filter hN]
  rw [hdel, ← herase]
  exact List.perm_cons_erase hmac_mem

/-- Inserting a fresh key appends. -/
theorem mapInsert_fresh {m : MacMap} {k : String} (v : Device)
    (h : ∀ kv ∈ m, kv.1 ≠ k) : mapInsert m k v = m ++ [(k, v)] := by
  unfold mapInsert
  rw [show (m.any (fun kv => kv.1 == k)) = false by
    rw [List.any_eq_false]
    intro kv hkv
    simpa using h kv hkv]
  rfl

/-- When the truthy MACs of the device list are pairwise distinct, the MAC
map is literally the filtered list of (MAC, device) pairs. -/
theorem mkMacMap_eq_of_nodup (ds : List Device)
    (h : ((ds.filter (fun d => truthy d.macAddress)).map
      (fun d => d.macAddress.getD "")).Nodup) :
    mkMacMap ds = (ds.filter (fun d => truthy d.macAddress)).map
      (fun d => (d.macAddress.getD "", d)) := by
  unfold mkMacMap
  have key : ∀ (l : List Device) (acc : MacMap),
      ((acc.map (·.1)) ++ l.map (fun d => d.macAddress.getD "")).Nodup →
      l.foldl (fun m d => mapInsert m (d.macAddress.getD "") d) acc =
        acc ++ l.map (fun d => (d.macAddress.getD "", d)) := by
    intro l
    induction l with
    | nil => intro acc _; simp
    | cons d rest ih =>
      intro acc hacc
      rw [List.foldl_cons]
      have hfresh : ∀ kv ∈ acc, kv.1 ≠ d.macAddress.getD "" := by
        intro kv hkv hcontr
        rw [List.map_cons] at hacc
        have hnot := (List.nodup_append.mp hacc).2.2
        exact hnot (List.mem_map_of_mem _ hkv) (by rw [hcontr]; exact List.mem_cons_self _ _)
      rw [mapInsert_fresh d hfresh]
      rw [ih (acc ++ [(d.macAddress.getD "", d)]) (by
        rw [List.map_append]
        rw [List.map_cons] at hacc
        simpa [List.append_assoc] using hacc)]
      simp
  exact key _ [] (by simpa using h)

theorem jsOrNull_some_ne_empty {o : Option String} {m : String}
    (h : jsOrNull o = some m) : m ≠ "" := by
  rcases o with _ | v
  · simp [jsOrNull] at h
  · by_cases hv : v = ""
    · simp [jsOrNull, hv] at h
    · simp only [jsOrNull, hv, if_neg, if_false, Option.some_inj] at h
      rw [← h]
      exact hv

/-- The final map of the loop keeps duplicate-free keys. -/
theorem syncFold_keys_nodup (userId : String) (now : Nat)
    (entries : List SyncEntry) (s : Store) (m : MacMap) (c u : Nat)
    (h : (m.map (·.1)).Nodup) :
    (((entries.foldl (syncStep userId now) (s, m, c, u)).2.1).map (·.1)).Nodup := by
  rw [syncFold_map]
  exact ((List.filter_sublist m).map _).nodup h

/-- Main loop invariant: the owner's truthy-MAC multiset equals the live map
keys plus the already-accounted MACs; each step moves one key over or
appends a freshly created MAC. -/
theorem syncFold_userMacs (u : String) (now : Nat) :
    ∀ (entries : List SyncEntry) (s : Store) (m : MacMap) (c0 u0 : Nat) (D : List String),
      (m.map (·.1)).Nodup →
      List.Perm (userMacs u s.devices) (m.map (·.1) ++ D) →
      List.Perm
        (userMacs u (entries.foldl (syncStep u now) (s, m, c0, u0)).1.devices)
        (((entries.foldl (syncStep u now) (s, m, c0, u0)).2.1).map (·.1) ++
          (D ++ entryMacs entries)) := by
  intro entries
  induction entries with
  | nil =>
    intro s m c0 u0 D _ hp
    simpa [entryMacs] using hp
  | cons e rest ih =>
    intro s m c0 u0 D hN hp
    rw [List.foldl_cons]
    rcases hmac : jsOrNull e.macAddress with _ | mac
    · rw [syncStep_nomac u now s c0 u0 hmac]
      have hdev : userMacs u (applyIp (createDevice s u e.name none e.status now).1
          (createDevice s u e.name none e.status now).2.id e.ipAddress now).devices =
          userMacs u s.devices := by
        rw [applyIp_devices, createDevice_devices, userMacs_append,
          userMacs_singleton_none u _ rfl, List.append_nil]
      have hres := ih _ m (c0 + 1) u0 D hN (by rw [hdev]; exact hp)
      rw [show entryMacs (e :: rest) = entryMacs rest by
        simp [entryMacs, List.filterMap_cons, hmac]]
      exact hres
    · have hmne : mac ≠ "" := jsOrNull_some_ne_empty hmac
      have hconsmac : entryMacs (e :: rest) = mac :: entryMacs rest := by
        simp [entryMacs, List.filterMap_cons, hmac]
      rcases hget : mapGet m mac with _ | ex
      · rw [syncStep_create u now s c0 u0 hmac hget]
        have hdev : userMacs u (applyIp (createDevice s u e.name (some mac) e.status now).1
            (createDevice s u e.name (some mac) e.status now).2.id e.ipAddress now).devices =
            userMacs u s.devices ++ [mac] := by
          rw [applyIp_devices, createDevice_devices, userMacs_append,
            userMacs_singleton_truthy u _ rfl rfl hmne]
        have hp' : List.Perm
            (userMacs u (applyIp (createDevice s u e.name (some mac) e.status now).1
              (createDevice s u e.name (some mac) e.status now).2.id e.ipAddress now).devices)
            (m.map (·.1) ++ (D ++ [mac])) := by
          rw [hdev, ← List.append_assoc]
          exact hp.append_right [mac]
        have hres := ih _ m (c0 + 1) u0 (D ++ [mac]) hN hp'
        rw [hconsmac]
        rw [show D ++ mac :: entryMacs rest = (D ++ [mac]) ++ entryMacs rest by
          rw [List.append_assoc, List.singleton_append]]
        exact hres
      · rw [syncStep_match u now s c0 u0 hmac hget]
        have hdev : userMacs u (applyIp (updateDevice s ex.id
            { name := some e.name, status := some e.status } now).1
            ex.id e.ipAddress now).devices = userMacs u s.devices := by
          rw [applyIp_devices, updateDevice_devices]
          exact userMacs_map_update u ex.id _ rfl now s.devices
        have hNdel : ((mapDelete m mac).map (·.1)).Nodup := by
          rw [mapDelete_keys]
          exact (List.filter_sublist _).nodup hN
        have hp' : List.Perm
            (userMacs u (applyIp (updateDevice s ex.id
              { name := some e.name, status := some e.status } now).1
              ex.id e.ipAddress now).devices)
            ((mapDelete m mac).map (·.1) ++ (D ++ [mac])) := by
          rw [hdev]
          have h1 := hp.trans ((keys_perm_delete hN hget).append_right D)
          have h2 : List.Perm (mac :: ((mapDelete m mac).map (·.1) ++ D))
              ((mapDelete m mac).map (·.1) ++ (D ++ [mac])) := by
            have := (List.perm_append_singleton mac
              ((mapDelete m mac).map (·.1) ++ D)).symm
            rw [List.append_assoc] at this
            exact this
          exact (h1.trans (by rw [List.cons_append])).trans h2
        have hres := ih _ (mapDelete m mac) c0 (u0 + 1) (D ++ [mac]) hNdel hp'
        rw [hconsmac]
        rw [show D ++ mac :: entryMacs rest = (D ++ [mac]) ++ entryMacs rest by
          rw [List.append_assoc, List.singleton_append]]
        exact hres

/-! ## Coherence between the live map and the device table -/

/-- Every live map entry points (by id) at exactly one stored device, which
belongs to the owner and carries the entry's key as its MAC. -/
def mapStoreCoherent (u : String) (s : Store) (m : MacMap) : Prop :=
  ∀ kv ∈ m, kv.2.id < s.nextDeviceId ∧
    ∃ d', s.devices.filter (fun x => x.id == kv.2.id) = [d'] ∧
      d'.userId = u ∧ d'.macAddress = some kv.1 ∧ kv.1 ≠ ""

theorem mapStoreCoherent_frame {u : String} {s s' : Store} {m : MacMap}
    (hd : s'.devices = s.devices) (hn : s'.nextDeviceId = s.nextDeviceId)
    (h : mapStoreCoherent u s m) : mapStoreCoherent u s' m := by
  intro kv hkv
  obtain ⟨hlt, d', hfil, h1, h2, h3⟩ := h kv hkv
  exact ⟨by rw [hn]; exact hlt, d', by rw [hd]; exact hfil, h1, h2, h3⟩

theorem mapStoreCoherent_update (u : String) (s : Store) (m : MacMap) (j : Nat)
    (upd : DeviceUpdates) (hupd : upd.macAddress = none) (now : Nat)
    (h : mapStoreCoherent u s m) :
    mapStoreCoherent u (updateDevice s j upd now).1 m := by
  intro kv hkv
  obtain ⟨hlt, d', hfil, h1, h2, h3⟩ := h kv hkv
  refine ⟨by rw [updateDevice_nextDeviceId]; exact hlt, ?_⟩
  have hidpres : ∀ x : Device,
      ((fun d => if d.id == j then applyDeviceUpdates d upd now else d) x).id = x.id := by
    intro x
    by_cases hx : x.id = j <;> simp [hx]
  have hcomm : (updateDevice s j upd now).1.devices.filter (fun x => x.id == kv.2.id) =
      (s.devices.filter (fun x => x.id == kv.2.id)).map
        (fun d => if d.id == j then applyDeviceUpdates d upd now else d) := by
    rw [updateDevice_devices, List.filter_map]
    congr 1
    apply List.filter_congr
    intro x _
    show (((fun d => if d.id == j then applyDeviceUpdates d upd now else d) x).id == kv.2.id)
      = (x.id == kv.2.id)
    rw [hidpres x]
  refine ⟨if d'.id == j then applyDeviceUpdates d' upd now else d',
    by rw [hcomm, hfil]; rfl, ?_, ?_, h3⟩
  · by_cases hx : d'.id = j
    · simp [hx, h1]
    · simp [hx, h1]
  · by_cases hx : d'.id = j
    · simp only [hx, beq_self_eq_true, if_true]
      rw [applyDeviceUpdates_macAddress d' upd now hupd]
      exact h2
    · simp [hx, h2]

theorem mapStoreCoherent_create (u : String) (s : Store) (m : MacMap)
    (u2 n : String) (mac : Option String) (st : String) (now : Nat)
    (h : mapStoreCoherent u s m) :
    mapStoreCoherent u (createDevice s u2 n mac st now).1 m := by
  intro kv hkv
  obtain ⟨hlt, d', hfil, h1, h2, h3⟩ := h kv hkv
  refine ⟨by rw [createDevice_nextDeviceId]; omega, d', ?_, h1, h2, h3⟩
  rw [createDevice_devices, List.filter_append, hfil]
  rw [show ([(createDevice s u2 n mac st now).2].filter (fun x => x.id == kv.2.id)) = [] by
    rw [createDevice_snd]
    simp only [List.filter_cons, List.filter_nil]
    rw [show (s.nextDeviceId == kv.2.id) = false by
      simp only [beq_eq_false_iff_ne]; omega]
    rfl]
  rfl

theorem mapStoreCoherent_delete_sub {u : String} {s : Store} {m : MacMap} (k : String)
    (h : mapStoreCoherent u s m) : mapStoreCoherent u s (mapDelete m k) :=
  fun kv hkv => h kv (mapDelete_mem hkv)

/-- Coherence is maintained through the whole sync loop. -/
theorem syncFold_coherent (u : String) (now : Nat) :
    ∀ (entries : List SyncEntry) (s : Store) (m : MacMap) (c0 u0 : Nat),
      mapStoreCoherent u s m →
      mapStoreCoherent u (entries.foldl (syncStep u now) (s, m, c0, u0)).1
        (entries.foldl (syncStep u now) (s, m, c0, u0)).2.1 := by
  intro entries
  induction entries with
  | nil => intro s m c0 u0 h; exact h
  | cons e rest ih =>
    intro s m c0 u0 h
    rw [List.foldl_cons]
    rcases hmac : jsOrNull e.macAddress with _ | mac
    · rw [syncStep_nomac u now s c0 u0 hmac]
      exact ih _ _ _ _ (mapStoreCoherent_frame (applyIp_devices _ _ _ _)
        (applyIp_nextDeviceId _ _ _ _) (mapStoreCoherent_create u s m u e.name none e.status now h))
    · rcases hget : mapGet m mac with _ | ex
      · rw [syncStep_create u now s c0 u0 hmac hget]
        exact ih _ _ _ _ (mapStoreCoherent_frame (applyIp_devices _ _ _ _)
          (applyIp_nextDeviceId _ _ _ _)
          (mapStoreCoherent_create u s m u e.name (some mac) e.status now h))
      · rw [syncStep_match u now s c0 u0 hmac hget]
        exact ih _ _ _ _ (mapStoreCoherent_frame (applyIp_devices _ _ _ _)
          (applyIp_nextDeviceId _ _ _ _)
          (mapStoreCoherent_update u s (mapDelete m mac) ex.id _ rfl now
            (mapStoreCoherent_delete_sub mac h)))

/-- A list respects the owner's truthy-MAC multiset under permutation. -/
theorem userMacs_perm (u : String) {l l' : List Device} (h : List.Perm l l') :
    List.Perm (userMacs u l) (userMacs u l') :=
  ((h.filter _).filter _).map _

/-- The deletion phase removes, from the owner's truthy-MAC multiset, exactly
one occurrence of each remaining key. -/
theorem deleteFold_userMacs (u : String) :
    ∀ (m1 : MacMap) (s : Store),
      (m1.map (·.1)).Nodup →
      mapStoreCoherent u s m1 →
      List.Perm (userMacs u s.devices)
        (m1.map (·.1) ++
          userMacs u ((m1.map (·.2)).foldl (fun st d => deleteDevice st d.id) s).devices) := by
  intro m1
  induction m1 with
  | nil => intro s _ _; simp
  | cons kv rest ih =>
    intro s hN h
    obtain ⟨hlt, d', hfil, hd'u, hd'm, hd'ne⟩ := h kv (List.mem_cons_self kv rest)
    have hd'id : d'.id = kv.2.id := by
      have hmem : d' ∈ s.devices.filter (fun x => x.id == kv.2.id) := by
        rw [hfil]; exact List.mem_cons_self d' []
      simpa using (List.mem_filter.mp hmem).2
    -- one deletion removes exactly d'
    have hsplit : List.Perm s.devices
        ([d'] ++ (deleteDevice s kv.2.id).devices) := by
      have hfp := List.filter_append_perm (fun x => x.id == kv.2.id) s.devices
      rw [hfil] at hfp
      have : (deleteDevice s kv.2.id).devices =
          s.devices.filter (fun x => !(x.id == kv.2.id)) := by
        rw [deleteDevice_devices]
        apply List.filter_congr
        intro x _
        rfl
      rw [this]
      exact hfp.symm
    have hstep : List.Perm (userMacs u s.devices)
        (kv.1 :: userMacs u (deleteDevice s kv.2.id).devices) := by
      have := userMacs_perm u hsplit
      rw [userMacs_append, userMacs_singleton_truthy u d' hd'u hd'm hd'ne] at this
      exact this
    -- coherence of the tail after this deletion
    have hcoh' : mapStoreCoherent u (deleteDevice s kv.2.id) rest := by
      intro kv' hkv'
      obtain ⟨hlt2, d'', hfil2, h1, h2, h3⟩ := h kv' (List.mem_cons_of_mem kv hkv')
      have hd''id : d''.id = kv'.2.id := by
        have hmem : d'' ∈ s.devices.filter (fun x => x.id == kv'.2.id) := by
          rw [hfil2]; exact List.mem_cons_self d'' []
        simpa using (List.mem_filter.mp hmem).2
      have hidne : kv'.2.id ≠ kv.2.id := by
        intro hcontr
        have : s.devices.filter (fun x => x.id == kv'.2.id) =
            s.devices.filter (fun x => x.id == kv.2.id) := by rw [hcontr]
        rw [hfil2, hfil] at this
        have hdd : d'' = d' := by simpa using this
        have : kv'.1 = kv.1 := by
          have := h2
          rw [hdd, hd'm] at this
          simpa using this.symm
        have hknot := (List.nodup_cons.mp hN).1
        have hmem : kv'.1 ∈ rest.map (fun x => x.1) :=
          List.mem_map_of_mem (fun x => x.1) hkv'
        rw [this] at hmem
        exact hknot hmem
      refine ⟨by rw [deleteDevice_nextDeviceId]; exact hlt2, d'', ?_, h1, h2, h3⟩
      rw [deleteDevice_devices, List.filter_comm, hfil2]
      rw [show ([d''].filter (fun x => x.id != kv.2.id)) = [d''] by
        simp only [List.filter_cons, List.filter_nil]
        rw [show (d''.id != kv.2.id) = true by
          simp only [bne_iff_ne]
          rw [hd''id]
          exact hidne]
        rfl]
    have hres := ih (deleteDevice s kv.2.id) (List.nodup_cons.mp hN).2 hcoh'
    simp only [List.map_cons, List.foldl_cons]
    rw [List.cons_append]
    exact hstep.trans (List.Perm.cons kv.1 hres)

/-! ## Preservation of schema well-formedness and of MAC non-emptiness -/

theorem wf_updateDevice {s : Store} (hwf : s.wf) (j : Nat) (upd : DeviceUpdates)
    (now : Nat) : (updateDevice s j upd now).1.wf := by
  have hids : (updateDevice s j upd now).1.devices.map (·.id) = s.devices.map (·.id) := by
    rw [updateDevice_devices, List.map_map]
    apply List.map_congr_left
    intro x _
    show ((fun d => if d.id == j then applyDeviceUpdates d upd now else d) x).id = x.id
    by_cases hx : x.id = j <;> simp [hx]
  constructor
  · rw [hids]; exact hwf.1
  · intro d hd
    rw [updateDevice_devices] at hd
    rcases List.mem_map.mp hd with ⟨x, hx, hfx⟩
    rw [updateDevice_nextDeviceId, ← hfx]
    have : ((fun d => if d.id == j then applyDeviceUpdates d upd now else d) x).id = x.id := by
      by_cases hxx : x.id = j <;> simp [hxx]
    show (if x.id == j then applyDeviceUpdates x upd now else x).id < s.nextDeviceId
    rw [show (if x.id == j then applyDeviceUpdates x upd now else x) =
      (fun d => if d.id == j then applyDeviceUpdates d upd now else d) x from rfl, this]
    exact hwf.2 x hx

theorem wf_createDevice {s : Store} (hwf : s.wf) (u2 n : String) (mac : Option String)
    (st : String) (now : Nat) : (createDevice s u2 n mac st now).1.wf := by
  constructor
  · rw [createDevice_devices, List.map_append, createDevice_snd]
    rw [List.nodup_append]
    refine ⟨hwf.1, List.nodup_singleton _, ?_⟩
    intro a ha hb
    have hlt : a < s.nextDeviceId := by
      rcases List.mem_map.mp ha with ⟨x, hx, hfx⟩
      rw [← hfx]; exact hwf.2 x hx
    have : a = s.nextDeviceId := by simpa using hb
    omega
  · intro d hd
    rw [createDevice_nextDeviceId]
    rw [createDevice_devices] at hd
    rcases List.mem_append.mp hd with h | h
    · have := hwf.2 d h; omega
    · rw [createDevice_snd] at h
      have : d.id = s.nextDeviceId := by
        have := List.mem_singleton.mp h
        rw [this]
      omega

theorem wf_deleteDevice {s : Store} (hwf : s.wf) (j : Nat) : (deleteDevice s j).wf := by
  constructor
  · rw [deleteDevice_devices]
    exact ((List.filter_sublist _).map _).nodup hwf.1
  · intro d hd
    rw [deleteDevice_nextDeviceId]
    rw [deleteDevice_devices] at hd
    exact hwf.2 d (List.mem_of_mem_filter hd)

theorem wf_applyIp {s : Store} (hwf : s.wf) (did : Nat) (o : Option String) (now : Nat) :
    (applyIp s did o now).wf := by
  constructor
  · rw [applyIp_devices]; exact hwf.1
  · intro d hd
    rw [applyIp_nextDeviceId]
    rw [applyIp_devices] at hd
    exact hwf.2 d hd

theorem syncFold_wf (u : String) (now : Nat) :
    ∀ (entries : List SyncEntry) (s : Store) (m : MacMap) (c0 u0 : Nat),
      s.wf → (entries.foldl (syncStep u now) (s, m, c0, u0)).1.wf := by
  intro entries
  induction entries with
  | nil => intro s m c0 u0 h; exact h
  | cons e rest ih =>
    intro s m c0 u0 h
    rw [List.foldl_cons]
    rcases hmac : jsOrNull e.macAddress with _ | mac
    · rw [syncStep_nomac u now s c0 u0 hmac]
      exact ih _ _ _ _ (wf_applyIp (wf_createDevice h u e.name none e.status now) _ _ _)
    · rcases hget : mapGet m mac with _ | ex
      · rw [syncStep_create u now s c0 u0 hmac hget]
        exact ih _ _ _ _ (wf_applyIp (wf_createDevice h u e.name (some mac) e.status now) _ _ _)
      · rw [syncStep_match u now s c0 u0 hmac hget]
        exact ih _ _ _ _ (wf_applyIp (wf_updateDevice h ex.id _ now) _ _ _)

theorem deleteFold_wf : ∀ (vs : List Device) (s : Store), s.wf →
    (vs.foldl (fun st d => deleteDevice st d.id) s).wf := by
  intro vs
  induction vs with
  | nil => intro s h; exact h
  | cons v rest ih =>
    intro s h
    rw [List.foldl_cons]
    exact ih _ (wf_deleteDevice h v.id)

/-- Schema well-formedness survives a whole sync call. -/
theorem syncDevices_wf (s : Store) (u : String) (entries : List SyncEntry) (now : Nat)
    (hwf : s.wf) : (syncDevices s u entries now).1.wf := by
  unfold syncDevices syncRemaining
  exact deleteFold_wf _ _ (syncFold_wf u now entries s _ 0 0 hwf)

/-- No stored device ever carries the empty string as its MAC (the handlers
store `macAddress || null`). -/
def noEmptyMacs (s : Store) : Prop := ∀ d ∈ s.devices, d.macAddress ≠ some ""

instance (s : Store) : Decidable (noEmptyMacs s) := by
  unfold noEmptyMacs; infer_instance

theorem noEmptyMacs_applyIp {s : Store} (h : noEmptyMacs s) (did : Nat)
    (o : Option String) (now : Nat) : noEmptyMacs (applyIp s did o now) := by
  intro d hd
  rw [applyIp_devices] at hd
  exact h d hd

theorem noEmptyMacs_updateDevice {s : Store} (h : noEmptyMacs s) (j : Nat)
    (upd : DeviceUpdates) (hupd : upd.macAddress = none) (now : Nat) :
    noEmptyMacs (updateDevice s j upd now).1 := by
  intro d hd
  rw [updateDevice_devices] at hd
  rcases List.mem_map.mp hd with ⟨x, hx, hfx⟩
  rw [← hfx]
  by_cases hxx : x.id = j
  · show (if x.id == j then applyDeviceUpdates x upd now else x).macAddress ≠ some ""
    rw [if_pos (by simp [hxx]), applyDeviceUpdates_macAddress x upd now hupd]
    exact h x hx
  · show (if x.id == j then applyDeviceUpdates x upd now else x).macAddress ≠ some ""
    rw [if_neg (by simp [hxx])]
    exact h x hx

theorem noEmptyMacs_createDevice {s : Store} (h : noEmptyMacs s) (u2 n : String)
    (mac : Option String) (hmac : mac ≠ some "") (st : String) (now : Nat) :
    noEmptyMacs (createDevice s u2 n mac st now).1 := by
  intro d hd
  rw [createDevice_devices] at hd
  rcases List.mem_append.mp hd with hh | hh
  · exact h d hh
  · rw [createDevice_snd] at hh
    rw [List.mem_singleton.mp hh]
    exact hmac

theorem noEmptyMacs_deleteDevice {s : Store} (h : noEmptyMacs s) (j : Nat) :
    noEmptyMacs (deleteDevice s j) := by
  intro d hd
  rw [deleteDevice_devices] at hd
  exact h d (List.mem_of_mem_filter hd)

theorem syncFold_noEmptyMacs (u : String) (now : Nat) :
    ∀ (entries : List SyncEntry) (s : Store) (m : MacMap) (c0 u0 : Nat),
      noEmptyMacs s → noEmptyMacs (entries.foldl (syncStep u now) (s, m, c0, u0)).1 := by
  intro entries
  induction entries with
  | nil => intro s m c0 u0 h; exact h
  | cons e rest ih =>
    intro s m c0 u0 h
    rw [List.foldl_cons]
    rcases hmac : jsOrNull e.macAddress with _ | mac
    · rw [syncStep_nomac u now s c0 u0 hmac]
      exact ih _ _ _ _ (noEmptyMacs_applyIp
        (noEmptyMacs_createDevice h u e.name none (by simp) e.status now) _ _ _)
    · rcases hget : mapGet m mac with _ | ex
      · rw [syncStep_create u now s c0 u0 hmac hget]
        exact ih _ _ _ _ (noEmptyMacs_applyIp
          (noEmptyMacs_createDevice h u e.name (some mac)
            (by simpa using jsOrNull_some_ne_empty hmac) e.status now) _ _ _)
      · rw [syncStep_match u now s c0 u0 hmac hget]
        exact ih _ _ _ _ (noEmptyMacs_applyIp
          (noEmptyMacs_updateDevice h ex.id _ rfl now) _ _ _)

theorem deleteFold_noEmptyMacs : ∀ (vs : List Device) (s : Store), noEmptyMacs s →
    noEmptyMacs (vs.foldl (fun st d => deleteDevice st d.id) s) := by
  intro vs
  induction vs with
  | nil => intro s h; exact h
  | cons v rest ih =>
    intro s h
    rw [List.foldl_cons]
    exact ih _ (noEmptyMacs_deleteDevice h v.id)

theorem syncDevices_noEmptyMacs (s : Store) (u : String) (entries : List SyncEntry)
    (now : Nat) (h : noEmptyMacs s) : noEmptyMacs (syncDevices s u entries now).1 := by
  unfold syncDevices syncRemaining
  exact deleteFold_noEmptyMacs _ _ (syncFold_noEmptyMacs u now entries s _ 0 0 h)

/-! ## Master characterisation of a sync call on the owner's MAC multiset -/

/-- After a sync call, the owner's truthy-MAC multiset is exactly the multiset
of reported (truthy) MACs. -/
theorem syncDevices_userMacs_perm (s : Store) (u : String) (entries : List SyncEntry)
    (now : Nat) (hwf : s.wf) (hND : (userMacs u s.devices).Nodup) :
    List.Perm (userMacs u (syncDevices s u entries now).1.devices) (entryMacs entries) := by
  have hm0keys : (mkMacMap (getDevices s u)).map (·.1) = userMacs u s.devices := by
    rw [show getDevices s u = s.devices.filter (fun d => d.userId == u) from rfl,
      mkMacMap_eq_of_nodup _ hND, List.map_map]
    rfl
  have hcoh0 : mapStoreCoherent u s (mkMacMap (getDevices s u)) := by
    intro kv hkv
    obtain ⟨hmem, hmacv, hne⟩ := mkMacMap_mem hkv
    have hdev : kv.2 ∈ s.devices := List.mem_of_mem_filter hmem
    have huser : kv.2.userId = u := by
      have := (List.mem_filter.mp hmem).2
      simpa using this
    exact ⟨hwf.2 _ hdev, kv.2, filter_key_of_nodup hwf.1 hdev, huser, hmacv, hne⟩
  have hNkeys : ((mkMacMap (getDevices s u)).map (·.1)).Nodup := by
    rw [hm0keys]; exact hND
  have hloop := syncFold_userMacs u now entries s (mkMacMap (getDevices s u)) 0 0 []
    hNkeys (by rw [hm0keys, List.append_nil])
  have hcohEnd := syncFold_coherent u now entries s (mkMacMap (getDevices s u)) 0 0 hcoh0
  have hNend := syncFold_keys_nodup u now entries s (mkMacMap (getDevices s u)) 0 0 hNkeys
  have hdel := deleteFold_userMacs u
    (entries.foldl (syncStep u now) (s, mkMacMap (getDevices s u), 0, 0)).2.1
    (entries.foldl (syncStep u now) (s, mkMacMap (getDevices s u), 0, 0)).1 hNend hcohEnd
  rw [List.nil_append] at hloop
  have hcomb := (List.perm_append_left_iff _).mp (hdel.symm.trans hloop)
  show List.Perm (userMacs u
    ((((entries.foldl (syncStep u now) (s, mkMacMap (getDevices s u), 0, 0)).2.1.map
      (·.2)).foldl (fun st d => deleteDevice st d.id)
      (entries.foldl (syncStep u now) (s, mkMacMap (getDevices s u), 0, 0)).1)).devices)
    (entryMacs entries)
  exact hcomb

/-! ## The per-owner MAC uniqueness invariant (C8) -/

/-- Within one owner's scope, at most one device carries any given non-null
hardware address. -/
def macUnique (u : String) (l : List Device) : Prop :=
  ((l.filter (fun d => d.userId == u && d.macAddress != none)).map
    (fun d => d.macAddress)).Nodup

instance (u : String) (l : List Device) : Decidable (macUnique u l) := by
  unfold macUnique; infer_instance

/-- With no empty-string MACs stored, the non-null filter and the truthy
filter coincide, so MAC uniqueness is exactly duplicate-freedom of the
owner's truthy-MAC multiset. -/
theorem macUnique_iff_userMacs_nodup (u : String) (s : Store) (hne : noEmptyMacs s) :
    macUnique u s.devices ↔ (userMacs u s.devices).Nodup := by
  unfold macUnique userMacs
  have hfil : s.devices.filter (fun d => d.userId == u && d.macAddress != none) =
      (s.devices.filter (fun d => d.userId == u)).filter (fun d => truthy d.macAddress) := by
    rw [List.filter_filter]
    apply List.filter_congr
    intro d hd
    rcases hm : d.macAddress with _ | v
    · simp [truthy]
    · have hv : v ≠ "" := by
        intro hc
        exact hne d hd (by rw [hm, hc])
      simp [truthy, hv, Bool.and_comm]
  rw [hfil]
  have hmap : ((s.devices.filter (fun d => d.userId == u)).filter
        (fun d => truthy d.macAddress)).map (fun d => d.macAddress) =
      (((s.devices.filter (fun d => d.userId == u)).filter
        (fun d => truthy d.macAddress)).map (fun d => d.macAddress.getD "")).map some := by
    rw [List.map_map]
    apply List.map_congr_left
    intro d hd
    have htr : truthy d.macAddress = true := by
      have := (List.mem_filter.mp hd).2
      simpa using this
    rcases hm : d.macAddress with _ | v
    · rw [hm] at htr; cases htr
    · simp [hm]
  rw [hmap]
  exact List.nodup_map_iff (Option.some_injective _)

/-! ## Consequences of a validated payload -/

theorem validateSyncBody_entries {L : List SyncEntry} (hval : validateSyncBody L = []) :
    ∀ e ∈ L, validateSyncEntry e = [] := by
  intro e he
  by_contra hbad
  obtain ⟨f, hf⟩ : ∃ f, f ∈ validateSyncEntry e := List.exists_mem_of_ne_nil _ hbad
  obtain ⟨i, hi⟩ : ∃ i, L[i]? = some e := by
    rcases List.get_of_mem he with ⟨n, hn⟩
    refine ⟨n.1, ?_⟩
    rw [List.getElem?_eq_getElem n.isLt, ← List.get_eq_getElem, hn]
  have := mem_validateSyncBody hi hf
  rw [hval] at this
  cases this

theorem validateSyncEntry_mac {e : SyncEntry} (hv : validateSyncEntry e = []) :
    ∀ v, e.macAddress = some v → isValidMacAddress v = true := by
  intro v hm
  unfold validateSyncEntry at hv
  rw [hm] at hv
  rcases List.append_eq_nil.mp hv with ⟨h2, _⟩
  rcases List.append_eq_nil.mp h2 with ⟨_, h4⟩
  by_contra hbad
  have h5 : (if isValidMacAddress v = true then ([] : List String)
      else ["macAddress"]) = [] := h4
  rw [if_neg hbad] at h5
  cases h5

theorem isValidMacAddress_ne_empty {v : String} (h : isValidMacAddress v = true) :
    v ≠ "" := by
  intro hc
  rw [hc] at h
  cases h

theorem jsOrNull_some_inv {o : Option String} {m : String}
    (h : jsOrNull o = some m) : o = some m := by
  rcases o with _ | v
  · cases h
  · by_cases hv : v = ""
    · simp [jsOrNull, hv] at h
    · simp only [jsOrNull, hv, if_false] at h
      rw [show v = m by simpa using h]

/-- For a validated entry, JS truthiness does not change the MAC. -/
theorem validated_jsOrNull_mac {e : SyncEntry} (hv : validateSyncEntry e = []) :
    jsOrNull e.macAddress = e.macAddress := by
  rcases hm : e.macAddress with _ | v
  · rfl
  · have hvalid := validateSyncEntry_mac hv v hm
    have hne := isValidMacAddress_ne_empty hvalid
    simp [jsOrNull, hne]

theorem entryMacs_of_valid {L : List SyncEntry} (hval : validateSyncBody L = []) :
    entryMacs L = L.filterMap (fun e => e.macAddress) := by
  unfold entryMacs
  exact List.filterMap_congr
    (fun e he => validated_jsOrNull_mac (validateSyncBody_entries hval e he))

theorem mapGet_isSome_of_mem_keys {m : MacMap} {k : String}
    (h : k ∈ m.map (·.1)) : (mapGet m k).isSome := by
  rcases List.mem_map.mp h with ⟨kv, hkv, hk⟩
  exact mapGet_isSome_iff.mpr ⟨kv, hkv, hk⟩

theorem mapDelete_keys_mem {m : MacMap} {k k' : String} (hmem : k' ∈ m.map (·.1))
    (hne : k' ≠ k) : k' ∈ (mapDelete m k).map (·.1) := by
  rw [mapDelete_keys]
  exact List.mem_filter.mpr ⟨hmem, by simpa using hne⟩

/-- When every reported entry carries a truthy MAC, the reported MACs are
pairwise distinct, and each of them is a live map key, the loop never takes
the create branch. -/
theorem syncFold_allmatch (u : String) (now : Nat) :
    ∀ (entries : List SyncEntry) (s : Store) (m : MacMap) (c0 u0 : Nat),
      (entryMacs entries).Nodup →
      (∀ e ∈ entries, ∃ mc, jsOrNull e.macAddress = some mc) →
      (∀ mc ∈ entryMacs entries, mc ∈ m.map (·.1)) →
      (entries.foldl (syncStep u now) (s, m, c0, u0)).2.2.1 = c0 := by
  intro entries
  induction entries with
  | nil => intro s m c0 u0 _ _ _; rfl
  | cons e rest ih =>
    intro s m c0 u0 hND hsome hkeys
    obtain ⟨mc, hmac⟩ := hsome e (List.mem_cons_self e rest)
    have hcons : entryMacs (e :: rest) = mc :: entryMacs rest := by
      simp [entryMacs, List.filterMap_cons, hmac]
    have hhead : mc ∈ m.map (·.1) := hkeys mc (by rw [hcons]; exact List.mem_cons_self _ _)
    obtain ⟨ex, hget⟩ := Option.isSome_iff_exists.mp (mapGet_isSome_of_mem_keys hhead)
    rw [List.foldl_cons, syncStep_match u now s c0 u0 hmac hget]
    rw [hcons] at hND
    apply ih _ (mapDelete m mc) c0 (u0 + 1) hND.of_cons
      (fun x hx => hsome x (List.mem_cons_of_mem e hx))
    intro mc' hmc'
    have hne : mc' ≠ mc := by
      intro hc
      exact (List.nodup_cons.mp hND).1 (hc ▸ hmc')
    exact mapDelete_keys_mem (hkeys mc' (by rw [hcons]; exact List.mem_cons_of_mem _ hmc')) hne

/-- A stable sync call: when the reported truthy MACs are exactly the owner's
stored truthy MACs (both duplicate-free) and every entry reports a MAC, every
entry matches in place and nothing is created or deleted. -/
theorem syncDevices_stable (s : Store) (u : String) (L : List SyncEntry) (now : Nat)
    (hND : (userMacs u s.devices).Nodup)
    (hsome : ∀ e ∈ L, ∃ mc, jsOrNull e.macAddress = some mc)
    (hNDe : (entryMacs L).Nodup)
    (hmem : ∀ mc, mc ∈ entryMacs L ↔ mc ∈ userMacs u s.devices) :
    (syncDevices s u L now).2 =
      { created := 0, updated := L.length, deleted := 0 } := by
  have hm0keys : (mkMacMap (getDevices s u)).map (·.1) = userMacs u s.devices := by
    rw [show getDevices s u = s.devices.filter (fun d => d.userId == u) from rfl,
      mkMacMap_eq_of_nodup _ hND, List.map_map]
    rfl
  have hc : (L.foldl (syncStep u now) (s, mkMacMap (getDevices s u), 0, 0)).2.2.1 = 0 :=
    syncFold_allmatch u now L s (mkMacMap (getDevices s u)) 0 0 hNDe hsome
      (fun mc hmc => by rw [hm0keys]; exact (hmem mc).mp hmc)
  have hcu := syncFold_counters u now L s (mkMacMap (getDevices s u)) 0 0
  have hu : (L.foldl (syncStep u now) (s, mkMacMap (getDevices s u), 0, 0)).2.2.2 =
      L.length := by omega
  have hmap : (L.foldl (syncStep u now) (s, mkMacMap (getDevices s u), 0, 0)).2.1 = [] := by
    rw [syncFold_map, List.filter_eq_nil_iff]
    intro kv hkv
    have hk : kv.1 ∈ userMacs u s.devices := by
      rw [← hm0keys]
      exact List.mem_map_of_mem _ hkv
    simpa using (hmem kv.1).mpr hk
  unfold syncDevices syncRemaining
  rw [hmap, hc, hu]
  rfl

/-! ## Preservation of per-owner MAC uniqueness (towards C8) -/

/-- Mapping a function that preserves owner and MAC over the device table
preserves MAC uniqueness. -/
theorem macUnique_map (u : String) (f : Device → Device)
    (hu : ∀ x, (f x).userId = x.userId) (hm : ∀ x, (f x).macAddress = x.macAddress)
    (l : List Device) (h : macUnique u l) : macUnique u (l.map f) := by
  unfold macUnique at h ⊢
  rw [filter_map_proj f (fun d => d.userId == u && d.macAddress != none)
    (fun d => d.macAddress) (fun x => by simp only [hu x, hm x]) (fun x => hm x) l]
  exact h

theorem macUnique_sublist {u : String} {l l' : List Device} (hs : List.Sublist l' l)
    (h : macUnique u l) : macUnique u l' := by
  unfold macUnique at h ⊢
  exact ((hs.filter _).map _).nodup h

theorem macUnique_append_none (u : String) {l : List Device} (d : Device)
    (hd : d.macAddress = none) (h : macUnique u l) : macUnique u (l ++ [d]) := by
  unfold macUnique at h ⊢
  rw [List.filter_append,
    show [d].filter (fun x => x.userId == u && x.macAddress != none) = [] by simp [hd],
    List.append_nil]
  exact h

theorem macUnique_append_fresh (u : String) {l : List Device} (d : Device) {v : String}
    (hd : d.macAddress = some v)
    (hfresh : ∀ x ∈ l, x.userId = u → x.macAddress ≠ some v)
    (h : macUnique u l) : macUnique u (l ++ [d]) := by
  unfold macUnique at h ⊢
  rw [List.filter_append]
  by_cases huid : d.userId = u
  · rw [show [d].filter (fun x => x.userId == u && x.macAddress != none) = [d] by
      simp [hd, huid]]
    rw [List.map_append]
    rw [List.nodup_append]
    refine ⟨h, by simp, ?_⟩
    intro a ha hmem
    have hav : a = some v := by
      rw [show [d].map (fun x => x.macAddress) = [some v] by simp [hd]] at hmem
      simpa using hmem
    rcases List.mem_map.mp ha with ⟨x, hx, hxa⟩
    have hxl : x ∈ l := List.mem_of_mem_filter hx
    have hxu : x.userId = u := by
      have hb := (List.mem_filter.mp hx).2
      rw [Bool.and_eq_true] at hb
      simpa using hb.1
    exact hfresh x hxl hxu (by rw [hxa, hav])
  · rw [show [d].filter (fun x => x.userId == u && x.macAddress != none) = [] by
      simp [huid], List.append_nil]
    exact h

theorem macUnique_update_branch (s : Store) (u : String) (j : Nat)
    (upd : DeviceUpdates) (hupd : upd.macAddress = none) (now : Nat)
    (h : macUnique u s.devices) :
    macUnique u (s.devices.map
      (fun d => if d.id == j then applyDeviceUpdates d upd now else d)) := by
  refine macUnique_map u _ ?_ ?_ _ h
  · intro x
    by_cases hid : x.id = j <;> simp [hid, applyDeviceUpdates]
  · intro x
    by_cases hid : x.id = j
    · simp only [hid, beq_self_eq_true, if_true]
      exact applyDeviceUpdates_macAddress x _ now hupd
    · simp [hid]

theorem registerDeviceRoute_macUnique (s : Store) (u : String) (b : RegisterBody)
    (now : Nat) (h : macUnique u s.devices) :
    macUnique u (registerDeviceRoute s u b now).devices := by
  unfold registerDeviceRoute
  rcases hmac : jsOrNull b.macAddress with _ | mac
  · show macUnique u (applyIp
      (createDevice s u b.name none (jsOr b.status "online") now).1
      (createDevice s u b.name none (jsOr b.status "online") now).2.id
      b.ipAddress now).devices
    rw [applyIp_devices, createDevice_devices]
    exact macUnique_append_none u _ rfl h
  · show macUnique u ((match getDeviceByMac s u mac with
      | some existing => applyIp
          (updateDevice s existing.id
            { name := some b.name, status := some (jsOr b.status "online") } now).1
          existing.id b.ipAddress now
      | none => applyIp
          (createDevice s u b.name (some mac) (jsOr b.status "online") now).1
          (createDevice s u b.name (some mac) (jsOr b.status "online") now).2.id
          b.ipAddress now : Store)).devices
    rcases hfind : getDeviceByMac s u mac with _ | ex
    · show macUnique u (applyIp
        (createDevice s u b.name (some mac) (jsOr b.status "online") now).1
        (createDevice s u b.name (some mac) (jsOr b.status "online") now).2.id
        b.ipAddress now).devices
      rw [applyIp_devices, createDevice_devices]
      refine macUnique_append_fresh u _ rfl ?_ h
      intro x hx hxu hxm
      have hnone := List.find?_eq_none.mp hfind x hx
      exact hnone (by simp [hxu, hxm])
    · show macUnique u (applyIp
        (updateDevice s ex.id
          { name := some b.name, status := some (jsOr b.status "online") } now).1
        ex.id b.ipAddress now).devices
      rw [applyIp_devices, updateDevice_devices]
      exact macUnique_update_branch s u ex.id _ rfl now h

theorem updateDeviceRoute_macUnique (s : Store) (u : String) (did : Nat)
    (b : UpdateBody) (now : Nat) (h : macUnique u s.devices) :
    macUnique u (updateDeviceRoute s u did b now).devices := by
  unfold updateDeviceRoute
  rcases getDevice s did with _ | d
  · exact h
  · show macUnique u (if d.userId != u then s
      else applyIp
        (updateDevice s did
          { name := jsOrNull b.name, status := jsOrNull b.status } now).1
        did b.ipAddress now).devices
    by_cases hu : d.userId != u
    · rw [if_pos hu]
      exact h
    · rw [if_neg hu]
      rw [applyIp_devices, updateDevice_devices]
      exact macUnique_update_branch s u did _ rfl now h

theorem deleteDeviceRoute_macUnique (s : Store) (u : String) (did : Nat)
    (h : macUnique u s.devices) :
    macUnique u (deleteDeviceRoute s u did).devices := by
  unfold deleteDeviceRoute
  rcases getDevice s did with _ | d
  · exact h
  · show macUnique u (if d.userId != u then s else deleteDevice s did).devices
    by_cases hu : d.userId != u
    · rw [if_pos hu]
      exact h
    · rw [if_neg hu]
      rw [deleteDevice_devices]
      exact macUnique_sublist (List.filter_sublist s.devices) h

theorem syncDevices_macUnique (s : Store) (u : String) (L : List SyncEntry) (now : Nat)
    (hwf : s.wf) (hne : noEmptyMacs s) (hNDe : (entryMacs L).Nodup)
    (h : macUnique u s.devices) : macUnique u (syncDevices s u L now).1.devices := by
  have hND0 := (macUnique_iff_userMacs_nodup u s hne).mp h
  have hperm := syncDevices_userMacs_perm s u L now hwf hND0
  have hne1 := syncDevices_noEmptyMacs s u L now hne
  exact (macUnique_iff_userMacs_nodup u _ hne1).mpr (hperm.nodup_iff.mpr hNDe)

/-! ## The deleted counter (towards C10) -/

/-- With duplicate-free owner MACs, the deleted counter is the number of the
owner's devices whose truthy MAC is reported by no entry. -/
theorem syncDevices_deleted (s : Store) (u : String) (L : List SyncEntry) (now : Nat)
    (hND : (userMacs u s.devices).Nodup) :
    (syncDevices s u L now).2.deleted =
      ((getDevices s u).filter (fun d => truthy d.macAddress &&
        decide (d.macAddress.getD "" ∉ entryMacs L))).length := by
  unfold syncDevices syncRemaining
  show ((L.foldl (syncStep u now) (s, mkMacMap (getDevices s u), 0, 0)).2.1.map
    (·.2)).length = _
  rw [List.length_map, syncFold_map]
  rw [show getDevices s u = s.devices.filter (fun d => d.userId == u) from rfl]
  rw [mkMacMap_eq_of_nodup _ hND]
  rw [List.filter_map, List.length_map]
  rw [show ((s.devices.filter (fun d => d.userId == u)).filter
      (fun d => truthy d.macAddress)).filter
      ((fun kv : String × Device => decide (kv.1 ∉ entryMacs L)) ∘
        (fun d => (d.macAddress.getD "", d))) =
    ((s.devices.filter (fun d => d.userId == u)).filter
      (fun d => truthy d.macAddress)).filter
      (fun d => decide (d.macAddress.getD "" ∉ entryMacs L)) from
    List.filter_congr (fun d _ => rfl)]
  rw [List.filter_filter]
  congr 1
  apply List.filter_congr
  intro d _
  rw [Bool.and_comm]

theorem entryMacs_length_of_all_some {L : List SyncEntry}
    (h : ∀ e ∈ L, ∃ mc, jsOrNull e.macAddress = some mc) :
    (entryMacs L).length = L.length := by
  induction L with
  | nil => rfl
  | cons e rest ih =>
    obtain ⟨mc, hmc⟩ := h e (List.mem_cons_self e rest)
    rw [show entryMacs (e :: rest) = mc :: entryMacs rest by
      simp [entryMacs, List.filterMap_cons, hmc]]
    rw [List.length_cons, List.length_cons,
      ih (fun x hx => h x (List.mem_cons_of_mem e hx))]

/-! ## C4: sync idempotence -/

def idemStore : Store :=
  { devices := []
    networkStates := []
    agentTokens := []
    nextDeviceId := 1 }

def idemPayload : List SyncEntry :=
  [{ name := "a"
     macAddress := some "AA:BB:CC:DD:EE:01"
     status := "online"
     ipAddress := none },
   { name := "b"
     macAddress := some "AA:BB:CC:DD:EE:01"
     status := "online"
     ipAddress := none }]

/-- C4 counterexample: a valid payload reporting the same hardware address
twice is not idempotent.  The first call creates two devices; on the second
call the map holds a single entry for the duplicated address (the `Map`
constructor collapses duplicate keys), so one entry matches and the other is
created again: the second call returns `created = 1, updated = 1`, not
`created = 0, updated = 2`. -/
theorem sync_idempotence_cex :
    validateSyncBody idemPayload = [] ∧
    idemPayload.length = 2 ∧
    (syncDevicesRoute (syncDevicesRoute idemStore "u" idemPayload 1).1 "u"
        idemPayload 2).2 =
      Except.ok { created := 1, updated := 1, deleted := 0 } ∧
    ({ created := 1, updated := 1, deleted := 0 } : SyncCounters) ≠
      { created := 0, updated := idemPayload.length, deleted := 0 } :=
  ⟨by decide, by decide, rfl, by decide⟩

/-- C4 (amended): sync is idempotent for a stable input provided the reported
list is stable in the relevant sense — every entry carries a (validated)
hardware address and no two entries report the same one — and the owner's
stored devices satisfy the soft MAC-uniqueness invariant (with no
empty-string MAC stored, as the code never stores one): then the second of
two identical valid sync calls returns `created = 0`, `updated = |L|`,
`deleted = 0`. -/
theorem sync_idempotent_for_stable_input (s : Store) (u : String) (L : List SyncEntry)
    (now now' : Nat) (hval : validateSyncBody L = []) (hwf : s.wf)
    (hne : noEmptyMacs s) (hmu : macUnique u s.devices)
    (hall : ∀ e ∈ L, e.macAddress ≠ none)
    (hND : (L.filterMap (fun e => e.macAddress)).Nodup) :
    ∃ s1 c1 s2, syncDevicesRoute s u L now = (s1, Except.ok c1) ∧
      syncDevicesRoute s1 u L now' =
        (s2, Except.ok { created := 0, updated := L.length, deleted := 0 }) := by
  have hsome : ∀ e ∈ L, ∃ mc, jsOrNull e.macAddress = some mc := by
    intro e he
    rcases hm : e.macAddress with _ | v
    · exact absurd hm (hall e he)
    · have hvalid := validateSyncEntry_mac (validateSyncBody_entries hval e he) v hm
      exact ⟨v, by simp [jsOrNull, isValidMacAddress_ne_empty hvalid]⟩
  have hNDe : (entryMacs L).Nodup := by
    rw [entryMacs_of_valid hval]
    exact hND
  have hND0 : (userMacs u s.devices).Nodup :=
    (macUnique_iff_userMacs_nodup u s hne).mp hmu
  have hperm := syncDevices_userMacs_perm s u L now hwf hND0
  have hND1 : (userMacs u (syncDevices s u L now).1.devices).Nodup :=
    hperm.nodup_iff.mpr hNDe
  have hmem : ∀ mc, mc ∈ entryMacs L ↔
      mc ∈ userMacs u (syncDevices s u L now).1.devices :=
    fun mc => (hperm.mem_iff).symm
  have hstable := syncDevices_stable (syncDevices s u L now).1 u L now' hND1
    hsome hNDe hmem
  refine ⟨(syncDevices s u L now).1, (syncDevices s u L now).2,
    (syncDevices (syncDevices s u L now).1 u L now').1,
    syncDevicesRoute_valid hval s u now, ?_⟩
  rw [syncDevicesRoute_valid hval _ u now', hstable]

def stableStore : Store :=
  { devices := []
    networkStates := []
    agentTokens := []
    nextDeviceId := 1 }

def stablePayload : List SyncEntry :=
  [{ name := "pc"
     macAddress := some "AA:BB:CC:DD:EE:02"
     status := "online"
     ipAddress := none }]

/-- C4 witness: the amended theorem applied to an empty store and a
one-entry stable payload. -/
theorem sync_idempotent_for_stable_input_witness :
    validateSyncBody stablePayload = [] ∧
    (∃ s1 c1 s2, syncDevicesRoute stableStore "u" stablePayload 1 = (s1, Except.ok c1) ∧
      syncDevicesRoute s1 "u" stablePayload 2 =
        (s2, Except.ok { created := 0, updated := stablePayload.length, deleted := 0 })) :=
  ⟨by decide,
   sync_idempotent_for_stable_input stableStore "u" stablePayload 1 2 (by decide)
     (by decide) (by decide) (by decide) (by decide) (by decide)⟩

/-! ## C8: per-owner MAC uniqueness -/

def emptyStoreC8 : Store :=
  { devices := []
    networkStates := []
    agentTokens := []
    nextDeviceId := 1 }

def dupMacPayload : List SyncEntry :=
  [{ name := "a"
     macAddress := some "AA:BB:CC:DD:EE:03"
     status := "online"
     ipAddress := none },
   { name := "b"
     macAddress := some "AA:BB:CC:DD:EE:03"
     status := "online"
     ipAddress := none }]

/-- C8 counterexample: sync does not always preserve per-owner MAC
uniqueness — one valid payload reporting the same hardware address twice
makes the handler create two devices with that address for the same owner,
although the invariant held (vacuously) before the call. -/
theorem sync_dup_mac_cex :
    macUnique "u" emptyStoreC8.devices ∧
    validateSyncBody dupMacPayload = [] ∧
    ¬ macUnique "u" (syncDevicesRoute emptyStoreC8 "u" dupMacPayload 5).1.devices :=
  ⟨by decide, by decide, by decide⟩

/-- C8 (amended): within one owner's scope, at most one stored device has
any given non-null hardware address, and this soft uniqueness is preserved
by every register, update and delete operation; sync preserves it provided
the truthy reported hardware addresses are pairwise distinct (with the ids
well-formed and no empty-string MAC stored). -/
theorem mac_uniqueness_preserved (s : Store) (u : String) (h : macUnique u s.devices) :
    (∀ b now, macUnique u (registerDeviceRoute s u b now).devices) ∧
    (∀ did b now, macUnique u (updateDeviceRoute s u did b now).devices) ∧
    (∀ did, macUnique u (deleteDeviceRoute s u did).devices) ∧
    (∀ L now, s.wf → noEmptyMacs s → (entryMacs L).Nodup →
      macUnique u (syncDevices s u L now).1.devices) :=
  ⟨fun b now => registerDeviceRoute_macUnique s u b now h,
   fun did b now => updateDeviceRoute_macUnique s u did b now h,
   fun did => deleteDeviceRoute_macUnique s u did h,
   fun L now hwf hne hNDe => syncDevices_macUnique s u L now hwf hne hNDe h⟩

def c8Store : Store :=
  { devices := [{ id := 1
                  userId := "u"
                  name := "pc"
                  macAddress := some "AA:BB:CC:DD:EE:04"
                  status := "online"
                  lastSeenAt := 0
                  createdAt := 0 }]
    networkStates := []
    agentTokens := []
    nextDeviceId := 2 }

def c8Payload : List SyncEntry :=
  [{ name := "pc"
     macAddress := some "AA:BB:CC:DD:EE:04"
     status := "online"
     ipAddress := none }]

/-- C8 witness: the preservation theorem applied to a one-device store, for
a delete call and a distinct-MAC sync call. -/
theorem mac_uniqueness_preserved_witness :
    macUnique "u" c8Store.devices ∧
    macUnique "u" (deleteDeviceRoute c8Store "u" 1).devices ∧
    macUnique "u" (syncDevices c8Store "u" c8Payload 7).1.devices :=
  ⟨by decide,
   (mac_uniqueness_preserved c8Store "u" (by decide)).2.2.1 1,
   (mac_uniqueness_preserved c8Store "u" (by decide)).2.2.2 c8Payload 7 (by decide)
     (by decide) (by decide)⟩

/-! ## C10: counter accounting -/

def dupMacStore : Store :=
  { devices := [{ id := 1
                  userId := "u"
                  name := "one"
                  macAddress := some "AA:BB:CC:DD:EE:05"
                  status := "online"
                  lastSeenAt := 0
                  createdAt := 0 },
                { id := 2
                  userId := "u"
                  name := "two"
                  macAddress := some "AA:BB:CC:DD:EE:05"
                  status := "online"
                  lastSeenAt := 0
                  createdAt := 0 }]
    networkStates := []
    agentTokens := []
    nextDeviceId := 3 }

def c10Payload : List SyncEntry :=
  [{ name := "new"
     macAddress := some "AA:BB:CC:DD:EE:99"
     status := "online"
     ipAddress := none }]

/-- C10 counterexample: `deleted` counts surviving map entries, not devices.
With two stored devices sharing one hardware address (soft uniqueness
violated, which the schema permits) and a payload reporting neither, the
call returns `deleted = 1` although two of the owner's devices carry a
non-null address reported by no entry. -/
theorem sync_counter_cex :
    validateSyncBody c10Payload = [] ∧
    (syncDevicesRoute dupMacStore "u" c10Payload 5).2 =
      Except.ok { created := 1, updated := 0, deleted := 1 } ∧
    ((getDevices dupMacStore "u").filter (fun d => d.macAddress != none &&
      !(c10Payload.any (fun e => e.macAddress == d.macAddress)))).length = 2 :=
  ⟨by decide, rfl, by decide⟩

/-- C10 (amended): for a sync call that passes validation, on a store whose
owner scope satisfies the soft MAC-uniqueness invariant (and stores no
empty-string MAC), the returned counters satisfy
`created + updated = |devices list|`, and `deleted` equals the number of the
owner's pre-existing devices whose non-null hardware address appears in no
reported entry. -/
theorem sync_counter_accounting (s : Store) (u : String) (L : List SyncEntry)
    (now : Nat) (hval : validateSyncBody L = []) (hne : noEmptyMacs s)
    (hmu : macUnique u s.devices) :
    ∃ s' r, syncDevicesRoute s u L now = (s', Except.ok r) ∧
      r.created + r.updated = L.length ∧
      r.deleted = ((getDevices s u).filter (fun d => d.macAddress != none &&
        !(L.any (fun e => e.macAddress == d.macAddress)))).length := by
  have hND : (userMacs u s.devices).Nodup :=
    (macUnique_iff_userMacs_nodup u s hne).mp hmu
  refine ⟨(syncDevices s u L now).1, (syncDevices s u L now).2,
    syncDevicesRoute_valid hval s u now, ?_, ?_⟩
  · have hcu := syncFold_counters u now L s (mkMacMap (getDevices s u)) 0 0
    show (syncDevices s u L now).2.created + (syncDevices s u L now).2.updated =
      L.length
    unfold syncDevices syncRemaining
    show (L.foldl (syncStep u now) (s, mkMacMap (getDevices s u), 0, 0)).2.2.1 +
      (L.foldl (syncStep u now) (s, mkMacMap (getDevices s u), 0, 0)).2.2.2 = L.length
    omega
  · rw [syncDevices_deleted s u L now hND]
    congr 1
    apply List.filter_congr
    intro d hd
    have hdev : d ∈ s.devices := List.mem_of_mem_filter hd
    rcases hm : d.macAddress with _ | v
    · simp [truthy]
    · have hvne : v ≠ "" := fun hc => hne d hdev (by rw [hm, hc])
      have hiff : v ∈ entryMacs L ↔
          (L.any (fun e => e.macAddress == some v) = true) := by
        rw [entryMacs_of_valid hval, List.any_eq_true]
        constructor
        · intro hv
          rcases List.mem_filterMap.mp hv with ⟨e, he, hev⟩
          exact ⟨e, he, by simp [hev]⟩
        · rintro ⟨e, he, hev⟩
          exact List.mem_filterMap.mpr ⟨e, he, by simpa using hev⟩
      by_cases hv : v ∈ entryMacs L
      · simp [truthy, hvne, hv, hiff.mp hv]
      · have hany : L.any (fun e => e.macAddress == some v) = false := by
          rw [← Bool.not_eq_true]
          intro hc
          exact hv (hiff.mpr hc)
        simp [truthy, hvne, hv, hany]

def c10wStore : Store :=
  { devices := [{ id := 1
                  userId := "u"
                  name := "old"
                  macAddress := some "AA:BB:CC:DD:EE:06"
                  status := "online"
                  lastSeenAt := 0
                  createdAt := 0 }]
    networkStates := []
    agentTokens := []
    nextDeviceId := 2 }

def c10wPayload : List SyncEntry :=
  [{ name := "new"
     macAddress := some "AA:BB:CC:DD:EE:07"
     status := "online"
     ipAddress := none }]

/-- C10 witness: the accounting theorem applied to a one-device store whose
device is reported by no entry. -/
theorem sync_counter_accounting_witness :
    validateSyncBody c10wPayload = [] ∧
    (∃ s' r, syncDevicesRoute c10wStore "u" c10wPayload 9 = (s', Except.ok r) ∧
      r.created + r.updated = c10wPayload.length ∧
      r.deleted = ((getDevices c10wStore "u").filter (fun d => d.macAddress != none &&
        !(c10wPayload.any (fun e => e.macAddress == d.macAddress)))).length) :=
  ⟨by decide,
   sync_counter_accounting c10wStore "u" c10wPayload 9 (by decide) (by decide)
     (by decide)⟩

end NetworkCloud
